import Mathlib

/-! # ticket-sales-backend-golang: spot validation, in-memory reservation, event listing

A shallow embedding of

* `internal/events/domain/spot.go` (`Spot`, `Spot.Validate`, `NewSpot`),
* `internal/events/infra/http/events_handler.go` (`EventsHandler.ReserveSpot`),
* `internal/events/infra/repository/event_repository_mysql.go` (`ListEvents`),

followed by the properties established about them.
-/

namespace TicketSales

/-! ## Go strings -/

/-- A Go `string` is an immutable sequence of bytes; `len` and indexing are byte-wise. -/
abbrev GoString := List (Fin 256)

/-- The bytes of an ASCII literal (every literal of the sources is ASCII). -/
def ascii (s : String) : GoString := s.data.map (fun c => Fin.ofNat c.toNat)

/-! ## `domain/spot.go` -/

/-- The error values declared in the `var ( ... )` block of `spot.go`. -/
inductive SpotError
  | ErrInvalidSpotNumber
  | ErrSpotNotFound
  | ErrSpotAlreadyReserved
  | ErrSpotNameRequired
  | ErrSpotNameTwoCharacters
  | ErrSpotNameStartWithLetter
  | ErrSpotNameEndWithNumber
  deriving DecidableEq, Repr

open SpotError

/-- Go: `type SpotStatus string`. -/
abbrev SpotStatus := GoString

/-- Go: `SpotStatusAvailable SpotStatus = "available"`. -/
def SpotStatusAvailable : SpotStatus := ascii "available"

/-- Go: `SpotStatusSold SpotStatus = "sold"`. -/
def SpotStatusSold : SpotStatus := ascii "sold"

/-- Go: `type Spot struct { ID, EventID, Name string; Status SpotStatus; TicketId string }`. -/
structure Spot where
  ID : GoString
  EventID : GoString
  Name : GoString
  Status : SpotStatus
  TicketId : GoString
  deriving DecidableEq, Repr

/-- IEEE-754 `float64`, kept as its bit pattern: prices are only copied, never computed on. -/
structure Float64 where
  bits : Nat
  deriving DecidableEq, Repr

/-- Go `time.Time`, kept as an instant: dates are only copied. -/
structure Time where
  unixNano : Int
  deriving DecidableEq, Repr

/-- Modelled from the spec: the declaration of `domain.Ticket` is not among the sources;
the fields are those of the composite literal in `ListEvents` (spec section 3, Ticket).
`Spot` is a `*Spot`, with `none` for `nil`. -/
structure Ticket where
  ID : GoString
  EventID : GoString
  Spot : Option Spot
  TicketType : GoString
  Price : Float64
  deriving DecidableEq, Repr

/-- Modelled from the spec: the declaration of `domain.Event` is not among the sources;
the fields are those of the composite literal in `ListEvents` (spec section 3, Event). -/
structure Event where
  ID : GoString
  Name : GoString
  Location : GoString
  Organization : GoString
  Rating : GoString
  Date : Time
  ImageURL : GoString
  Capacity : Int
  Price : Float64
  PartnerID : Int
  Spots : List Spot
  Tickets : List Ticket
  deriving DecidableEq, Repr

/-- Modelled from the spec: the declaration of `domain.Data` is not among the sources;
it is the in-memory snapshot decoded from `data.json` in `main.go`, of which the handlers
read `Events` (a slice of `Event`) and `Spots` (a slice of `Spot`). -/
structure Data where
  Events : List Event
  Spots : List Spot
  deriving DecidableEq, Repr

/-- Go: `func (s *Spot) Validate() error`; `none` is the `nil` error.
The four tests are taken in the order of the source; `Name[0]` and `Name[1]`
are byte reads, which the two length tests before them keep in range. -/
def Spot.Validate (s : Spot) : Option SpotError :=
  match s.Name with
  | [] => some ErrSpotNameRequired                       -- len(s.Name) == 0
  | [_] => some ErrSpotNameTwoCharacters                 -- len(s.Name) < 2
  | c0 :: c1 :: _ =>
    if c0 < 65 ∨ c0 > 90 then                            -- s.Name[0] < 'A' || s.Name[0] > 'Z'
      some ErrSpotNameStartWithLetter
    else if c1 < 48 ∨ c1 > 57 then                       -- s.Name[1] < '0' || s.Name[1] > '9'
      some ErrSpotNameEndWithNumber
    else
      none

/-- Go: `func NewSpot(event *Event, name string) (*Spot, error)`.
`uuid` stands for the string produced by `uuid.New().String()`; `event` is the
pointed-to event (a `nil` pointer is not an event). `TicketId` is left at its zero value.
The result is the Go pair `(*Spot, error)`, with `none` for `nil`. -/
def NewSpot (uuid : GoString) (event : Event) (name : GoString) :
    Option Spot × Option SpotError :=
  let spot : Spot :=
    { ID := uuid, EventID := event.ID, Name := name, Status := SpotStatusAvailable, TicketId := [] }
  match spot.Validate with
  | some err => (none, some err)                         -- return nil, err
  | none => (some spot, none)                            -- return spot, nil

/-! ## `infra/http/events_handler.go` -/

/-- Go: `http.StatusOK`. -/
def StatusOK : Nat := 200

/-- Go: `http.StatusNotFound`. -/
def StatusNotFound : Nat := 404

/-- Go: `http.StatusConflict`. -/
def StatusConflict : Nat := 409

/-- What a handler writes to its `http.ResponseWriter`. -/
inductive Response
  /-- Go: `http.Error(w, message, code)`. -/
  | error (message : GoString) (code : Nat)
  /-- Go: `Content-Type: application/json` and `json.NewEncoder(w).Encode(spot)`. -/
  | json (spot : Spot)
  deriving DecidableEq, Repr

/-- The status code of a response; a body written without `WriteHeader` is a 200. -/
def Response.status : Response → Nat
  | .error _ code => code
  | .json _ => StatusOK

/-- How the `for i, s := range h.Data.Spots` loop of `ReserveSpot` is left. -/
inductive ReserveLoop
  /-- The `return` after `http.Error(w, "Spot already reserved", http.StatusConflict)`. -/
  | conflict
  /-- The `break`: the slice after `h.Data.Spots[i].Status = "reserved"`, and the element
  `reservedSpot` points to. -/
  | reserved (spots : List Spot) (reservedSpot : Spot)
  /-- The range is exhausted and `reservedSpot` is still `nil`. -/
  | exhausted
  deriving DecidableEq, Repr

/-- Go: the test `s.EventID == eventID && s.ID == spotID` of the loop. -/
def Spot.addressedBy (s : Spot) (eventID spotID : GoString) : Bool :=
  decide (s.EventID = eventID) && decide (s.ID = spotID)

/-- The loop of `ReserveSpot` over the spots that are still to be visited. -/
def ReserveSpot.loop (eventID spotID : GoString) : List Spot → ReserveLoop
  | [] => .exhausted
  | s :: rest =>
    if s.addressedBy eventID spotID then
      if s.Status = ascii "reserved" then
        .conflict
      else
        let s1 := { s with Status := ascii "reserved" }
        .reserved (s1 :: rest) s1
    else
      match ReserveSpot.loop eventID spotID rest with
      | .conflict => .conflict
      | .reserved rest1 r => .reserved (s :: rest1) r
      | .exhausted => .exhausted

/-- Go: `func (h *EventsHandler) ReserveSpot(w, r, ps)`, with `eventID` and `spotID` the
two path parameters and `h.Data` passed through as the state. -/
def ReserveSpot (data : Data) (eventID spotID : GoString) : Response × Data :=
  match ReserveSpot.loop eventID spotID data.Spots with
  | .conflict => (.error (ascii "Spot already reserved") StatusConflict, data)
  | .reserved spots reservedSpot => (.json reservedSpot, { data with Spots := spots })
  | .exhausted => (.error (ascii "Spot not found for this event") StatusNotFound, data)

/-- The requests of a sequential run, each a pair `(eventID, spotID)`, served one after
the other by `ReserveSpot`; the responses in order, and the final state. -/
def serve (data : Data) : List (GoString × GoString) → List Response × Data
  | [] => ([], data)
  | (eventID, spotID) :: reqs =>
    let (resp, data1) := ReserveSpot data eventID spotID
    let (resps, data2) := serve data1 reqs
    (resp :: resps, data2)

/-! ### Concurrent requests

`net/http` serves each request in its own goroutine, and `ReserveSpot` takes no lock
around `h.Data.Spots`: between the test `s.Status == "reserved"` and the assignment
`h.Data.Spots[i].Status = "reserved"` another goroutine may run. The handler is therefore
cut at these two statements. -/

/-- How the loop of `ReserveSpot` stands once the test `s.Status == "reserved"` has been
made for the first addressed spot, and before anything is written. -/
inductive ReserveTest
  /-- The test holds: the handler answers 409 and returns. -/
  | conflict
  /-- The test fails for the spot at index `i`: the assignment to `h.Data.Spots[i]` comes
  next. -/
  | free (i : Nat)
  /-- No spot is addressed: the range is exhausted. -/
  | exhausted
  deriving DecidableEq, Repr

/-- The loop of `ReserveSpot` up to and including its test; nothing is written. -/
def ReserveSpot.test (eventID spotID : GoString) : List Spot → ReserveTest
  | [] => .exhausted
  | s :: rest =>
    if s.addressedBy eventID spotID then
      if s.Status = ascii "reserved" then .conflict else .free 0
    else
      match ReserveSpot.test eventID spotID rest with
      | .conflict => .conflict
      | .free i => .free (i + 1)
      | .exhausted => .exhausted

/-- Go: `h.Data.Spots[i].Status = "reserved"`, `reservedSpot = &h.Data.Spots[i]`, `break`,
and the encoding of `*reservedSpot`; `none` is the index-out-of-range failure. -/
def ReserveSpot.write (data : Data) (i : Nat) : Option (Response × Data) :=
  match data.Spots[i]? with
  | none => none
  | some s =>
    let s1 := { s with Status := ascii "reserved" }
    some (.json s1, { data with Spots := data.Spots.set i s1 })

/-- Where a goroutine serving `ReserveSpot` stands. -/
inductive Goroutine
  /-- The request for `(eventID, spotID)` has reached the handler. -/
  | start (eventID spotID : GoString)
  /-- The test has failed for the spot at index `i`; the assignment has not run yet. -/
  | tested (i : Nat)
  /-- The response is written. -/
  | done (resp : Response)
  /-- The goroutine has failed on an index out of range. -/
  | failed
  deriving DecidableEq, Repr

/-- One step of a goroutine on the shared `h.Data`: from `start` the loop up to its test,
from `tested` the assignment and the response. -/
def Goroutine.step (data : Data) : Goroutine → Goroutine × Data
  | .start eventID spotID =>
    match ReserveSpot.test eventID spotID data.Spots with
    | .conflict => (.done (.error (ascii "Spot already reserved") StatusConflict), data)
    | .free i => (.tested i, data)
    | .exhausted => (.done (.error (ascii "Spot not found for this event") StatusNotFound), data)
  | .tested i =>
    match ReserveSpot.write data i with
    | some (resp, data1) => (.done resp, data1)
    | none => (.failed, data)
  | .done resp => (.done resp, data)
  | .failed => (.failed, data)

/-- The goroutines `gs` run on the shared `data` under the schedule `sched`, which names
the goroutine that takes each next step. -/
def interleave (data : Data) (gs : List Goroutine) : List Nat → List Goroutine × Data
  | [] => (gs, data)
  | k :: sched =>
    match gs[k]? with
    | none => interleave data gs sched
    | some g =>
      let (g1, data1) := g.step data
      interleave data1 (gs.set k g1) sched

/-! ## `infra/repository/event_repository_mysql.go` -/

/-- A Go `error` value, kept as its message. -/
abbrev Error := GoString

/-- Go `sql.NullString` as `rows.Scan` fills it: `null` for SQL NULL. -/
inductive NullString
  | null
  | value (s : GoString)
  deriving DecidableEq, Repr

/-- Go: the field `Valid` of a `sql.NullString`. -/
def NullString.Valid : NullString → Bool
  | .null => false
  | .value _ => true

/-- Go: the field `String` of a `sql.NullString`; `Scan` leaves it empty on NULL. -/
def NullString.String : NullString → GoString
  | .null => []
  | .value s => s

/-- Go `sql.NullFloat64` as `rows.Scan` fills it. -/
inductive NullFloat64
  | null
  | value (f : Float64)
  deriving DecidableEq, Repr

/-- Go: the field `Valid` of a `sql.NullFloat64`. -/
def NullFloat64.Valid : NullFloat64 → Bool
  | .null => false
  | .value _ => true

/-- Go: the field `Float64` of a `sql.NullFloat64`; zero on NULL. -/
def NullFloat64.Float64 : NullFloat64 → Float64
  | .null => ⟨0⟩
  | .value f => f

/-- Go `sql.NullInt32` as `rows.Scan` fills it. -/
inductive NullInt32
  | null
  | value (i : Int)
  deriving DecidableEq, Repr

/-- Go: the field `Valid` of a `sql.NullInt32`. -/
def NullInt32.Valid : NullInt32 → Bool
  | .null => false
  | .value _ => true

/-- Go: the field `Int32` of a `sql.NullInt32`; zero on NULL. -/
def NullInt32.Int32 : NullInt32 → Int
  | .null => 0
  | .value i => i

/-- The twenty destinations of one successful `rows.Scan`, under the names of the loop's
local variables. `eventCapacity` is a plain `int`, so it has no NULL. -/
structure Row where
  eventID : NullString
  eventName : NullString
  eventLocation : NullString
  eventOrganization : NullString
  eventRating : NullString
  eventDate : NullString
  eventImageURL : NullString
  eventCapacity : Int
  eventPrice : NullFloat64
  partnerID : NullInt32
  spotID : NullString
  spotEventID : NullString
  spotName : NullString
  spotStatus : NullString
  spotTicketID : NullString
  ticketID : NullString
  ticketEventID : NullString
  ticketSpotID : NullString
  ticketType : NullString
  ticketPrice : NullFloat64
  deriving DecidableEq, Repr

/-- A `*sql.Rows` as the loop consumes it: the outcome of `rows.Scan` for each row that
`rows.Next()` delivers, and the value of `rows.Err()` once `Next` has returned false. -/
structure Rows where
  scans : List (Except Error Row)
  err : Option Error

/-- A Go `map[string]V`, kept as its entries (at most one per key). -/
abbrev GoMap (V : Type) := List (GoString × V)

/-- Go: `v, ok := m[k]`. -/
def GoMap.get {V : Type} : GoMap V → GoString → Option V
  | [], _ => none
  | (k1, v) :: m, k => if k1 = k then some v else GoMap.get m k

/-- Go: `m[k] = v`; with pointer values this is also a write through the pointer
stored under `k`. -/
def GoMap.set {V : Type} : GoMap V → GoString → V → GoMap V
  | [], k, v => [(k, v)]
  | (k1, v1) :: m, k, v => if k1 = k then (k1, v) :: m else (k1, v1) :: GoMap.set m k v

/-- Go: the values in the order of one `for _, v := range m`. The language leaves the
order of a map range unspecified; `seed` is the choice the runtime makes: every seed
gives a permutation of the entries and every permutation comes from some seed. -/
def GoMap.range {V : Type} : List Nat → GoMap V → List V
  | _, [] => []
  | seed, (_, v) :: m =>
    let rest := GoMap.range seed.tail m
    rest.insertIdx (seed.headD 0 % (rest.length + 1)) v

/-- Go: the test before `continue` in the row loop. -/
def Row.skipped (r : Row) : Bool :=
  !r.eventID.Valid || !r.eventName.Valid || !r.eventLocation.Valid ||
  !r.eventOrganization.Valid || !r.eventRating.Valid || !r.eventDate.Valid ||
  !r.eventImageURL.Valid || !r.eventPrice.Valid || !r.partnerID.Valid

/-- Go: the literal `&domain.Event{...}` of the row loop. -/
def Row.event (r : Row) (eventDateParsed : Time) : Event :=
  { ID := r.eventID.String
    Name := r.eventName.String
    Location := r.eventLocation.String
    Organization := r.eventOrganization.String
    Rating := r.eventRating.String
    Date := eventDateParsed
    ImageURL := r.eventImageURL.String
    Capacity := r.eventCapacity
    Price := r.eventPrice.Float64
    PartnerID := r.partnerID.Int32
    Spots := []
    Tickets := [] }

/-- Go: the literal `&domain.Spot{...}` of the row loop. Its keys `ID`, `EventID`, `Name`
and `Status` are fields of `Spot`. Its fifth key, `TicketID: spotTicketID.String`, names
no field of `Spot`, which declares `TicketId` (`spot.go`): the compiler rejects the
literal as written, and no key of it assigns the declared `TicketId`, which is left at
its zero value here. -/
def Row.spot (r : Row) : Spot :=
  { ID := r.spotID.String
    EventID := r.spotEventID.String
    Name := r.spotName.String
    Status := r.spotStatus.String
    TicketId := [] }

/-- Go: the literal `domain.Ticket{...}` of the row loop, `spot` being the pointer held
in `spotMap`. -/
def Row.ticket (r : Row) (spot : Spot) : Ticket :=
  { ID := r.ticketID.String
    EventID := r.ticketEventID.String
    Spot := some spot
    TicketType := r.ticketType.String
    Price := r.ticketPrice.Float64 }

/-- The two maps of `ListEvents`. The values are pointers in the source; here each entry
holds the pointed-to value, and a write through the pointer is a `GoMap.set`. -/
structure Maps where
  eventMap : GoMap Event
  spotMap : GoMap Spot
  deriving DecidableEq, Repr

/-- Go: `event, exists := eventMap[eventID.String]` and the `if !exists` block, up to the
event `event` points to. `parse` is `time.Parse("2006-01-02 15:04:05", ·)`. -/
def ListEvents.event (parse : GoString → Except Error Time) (eventMap : GoMap Event)
    (r : Row) : Except Error Event :=
  match eventMap.get r.eventID.String with
  | some event => .ok event
  | none =>
    match parse r.eventDate.String with
    | .error err => .error err
    | .ok eventDateParsed => .ok (r.event eventDateParsed)

/-- Go: the `if spotID.Valid` block, run on the event `event` points to. -/
def ListEvents.spots (spotMap : GoMap Spot) (r : Row) (event : Event) : Event × GoMap Spot :=
  if r.spotID.Valid then
    let (spot, event1, spotMap1) :=
      match spotMap.get r.spotID.String with
      | some spot => (spot, event, spotMap)
      | none =>
        let spot := r.spot
        (spot, { event with Spots := event.Spots ++ [spot] }, spotMap.set r.spotID.String spot)
    if r.ticketID.Valid then
      ({ event1 with Tickets := event1.Tickets ++ [r.ticket spot] }, spotMap1)
    else
      (event1, spotMap1)
  else
    (event, spotMap)

/-- One turn of the row loop after a successful `Scan`. -/
def ListEvents.step (parse : GoString → Except Error Time) (m : Maps) (r : Row) :
    Except Error Maps :=
  if r.skipped then
    .ok m                                                -- continue
  else
    match ListEvents.event parse m.eventMap r with
    | .error err => .error err                           -- return nil, err
    | .ok event =>
      let (event1, spotMap1) := ListEvents.spots m.spotMap r event
      .ok { eventMap := m.eventMap.set r.eventID.String event1, spotMap := spotMap1 }

/-- Go: `for rows.Next() { ... }`. -/
def ListEvents.loop (parse : GoString → Except Error Time) :
    Maps → List (Except Error Row) → Except Error Maps
  | m, [] => .ok m
  | _, .error err :: _ => .error err                     -- Scan failed: return nil, err
  | m, .ok r :: scans =>
    match ListEvents.step parse m r with
    | .error err => .error err
    | .ok m1 => ListEvents.loop parse m1 scans

/-- Go: `func (r *mysqlEventRepository) ListEvents() ([]domain.Event, error)`.
`query` is what `r.db.Query(query)` returns, `parse` is `time.Parse` with the fixed
layout and `seed` fixes the order of the final map range. -/
def ListEvents (parse : GoString → Except Error Time) (seed : List Nat)
    (query : Except Error Rows) : Option (List Event) × Option Error :=
  match query with
  | .error err => (none, some err)
  | .ok rows =>
    match ListEvents.loop parse ⟨[], []⟩ rows.scans with
    | .error err => (none, some err)
    | .ok m =>
      let events := GoMap.range seed m.eventMap
      match rows.err with
      | some err => (none, some err)
      | none => (some events, none)

/-! ## What the rows say

The reading of a list of scanned rows that the properties of `ListEvents` are stated
against. -/

/-- The row is processed (not skipped) and carries the spot `spotID`. -/
def Row.hasSpot (r : Row) (spotID : GoString) : Bool :=
  !r.skipped && r.spotID.Valid && decide (r.spotID.String = spotID)

/-- The first processed row that carries the spot `spotID`. -/
def firstSpotRow (rows : List Row) (spotID : GoString) : Option Row :=
  rows.find? (fun r => r.hasSpot spotID)

/-- The row is processed, belongs to the event `eventID`, and carries a spot and a
ticket. -/
def Row.hasTicketIn (r : Row) (eventID : GoString) : Bool :=
  !r.skipped && decide (r.eventID.String = eventID) && r.spotID.Valid && r.ticketID.Valid

/-- The ticket of a row, referencing the spot built from the first processed row that
carries the row's spot ID. -/
def ticketOf (rows : List Row) (r : Row) : Ticket :=
  r.ticket (((firstSpotRow rows r.spotID.String).map Row.spot).getD r.spot)

/-- What the event stored under `k` holds once the rows `ps` have been through the loop. -/
structure ListEvents.EventInv (ps : List Row) (k : GoString) (ev : Event) : Prop where
  spots_first : ∀ sp ∈ ev.Spots,
    ∃ r, firstSpotRow ps sp.ID = some r ∧ sp = r.spot ∧ r.eventID.String = k
  spots_nodup : (ev.Spots.map (fun sp => sp.ID)).Nodup
  spots_all : ∀ id r, firstSpotRow ps id = some r → r.eventID.String = k → r.spot ∈ ev.Spots
  tickets : ev.Tickets = (ps.filter (fun r => r.hasTicketIn k)).map (ticketOf ps)

/-- What the two maps hold once the rows `ps` have been through the loop. -/
structure ListEvents.Inv (ps : List Row) (m : Maps) : Prop where
  keys_nodup : (m.eventMap.map Prod.fst).Nodup
  id_eq : ∀ p ∈ m.eventMap, p.2.ID = p.1
  keys_iff : ∀ k, k ∈ m.eventMap.map Prod.fst ↔
    ∃ r ∈ ps, r.skipped = false ∧ r.eventID.String = k
  spot_get : ∀ id, m.spotMap.get id = (firstSpotRow ps id).map Row.spot
  events : ∀ k ev, m.eventMap.get k = some ev → ListEvents.EventInv ps k ev

/-! ## A hall and a join result

The scenario of the specification: event `E1` with the spots `A1` and `B2`, and a second
event `E2` without spots. -/

/-- The spot `A1` of event `E1`, available. -/
def spotA1 : Spot :=
  { ID := ascii "s1", EventID := ascii "E1", Name := ascii "A1",
    Status := SpotStatusAvailable, TicketId := [] }

/-- The spot `B2` of event `E1`, available. -/
def spotB2 : Spot :=
  { ID := ascii "s2", EventID := ascii "E1", Name := ascii "B2",
    Status := SpotStatusAvailable, TicketId := [] }

/-- The snapshot holding `A1` and `B2`, both available. -/
def hall : Data := { Events := [], Spots := [spotA1, spotB2] }

/-- The spot `A1` with the data model's status `"sold"` and the ticket `T1`. -/
def soldA1 : Spot := { spotA1 with Status := SpotStatusSold, TicketId := ascii "T1" }

/-- The snapshot in which `A1` is sold. -/
def soldHall : Data := { Events := [], Spots := [soldA1, spotB2] }

/-- The snapshot in which `A1` has the handler's status `"reserved"`. -/
def reservedHall : Data :=
  { Events := [], Spots := [{ spotA1 with Status := ascii "reserved" }, spotB2] }

/-- A stand-in for `time.Parse` with the layout `2006-01-02 15:04:05`: it takes the
strings of the layout's length. -/
def parseDate (s : GoString) : Except Error Time :=
  if s.length = 19 then .ok ⟨0⟩ else .error (ascii "cannot parse")

/-- The join row of an event `E1` that has no spot. -/
def rowE1 : Row :=
  { eventID := .value (ascii "E1")
    eventName := .value (ascii "Show")
    eventLocation := .value (ascii "Hall")
    eventOrganization := .value (ascii "Org")
    eventRating := .value (ascii "L10")
    eventDate := .value (ascii "2024-05-01 20:00:00")
    eventImageURL := .value (ascii "img")
    eventCapacity := 2
    eventPrice := .value ⟨0⟩
    partnerID := .value 1
    spotID := .null
    spotEventID := .null
    spotName := .null
    spotStatus := .null
    spotTicketID := .null
    ticketID := .null
    ticketEventID := .null
    ticketSpotID := .null
    ticketType := .null
    ticketPrice := .null }

/-- The join row of `E1` with its sold spot `A1` and the ticket `T1`. -/
def rowA1 : Row :=
  { rowE1 with
    spotID := .value (ascii "s1")
    spotEventID := .value (ascii "E1")
    spotName := .value (ascii "A1")
    spotStatus := .value (ascii "sold")
    spotTicketID := .value (ascii "T1")
    ticketID := .value (ascii "T1")
    ticketEventID := .value (ascii "E1")
    ticketSpotID := .value (ascii "s1")
    ticketType := .value (ascii "full")
    ticketPrice := .value ⟨0⟩ }

/-- The join row of `E1` with its available spot `B2`, which has no ticket. -/
def rowB2 : Row :=
  { rowE1 with
    spotID := .value (ascii "s2")
    spotEventID := .value (ascii "E1")
    spotName := .value (ascii "B2")
    spotStatus := .value (ascii "available") }

/-- The join row of a second event `E2`, which has no spot. -/
def rowE2 : Row := { rowE1 with eventID := .value (ascii "E2") }

/-! ## Properties -/

/-! ## Spot names -/

theorem Spot.Validate_eq_none_iff (s : Spot) :
    s.Validate = none ↔
      2 ≤ s.Name.length ∧ (∃ c0, s.Name[0]? = some c0 ∧ 65 ≤ c0 ∧ c0 ≤ 90) ∧
        (∃ c1, s.Name[1]? = some c1 ∧ 48 ≤ c1 ∧ c1 ≤ 57) := by
  obtain ⟨i, e, name, st, t⟩ := s
  match name with
  | [] => simp [Spot.Validate]
  | [c] => simp [Spot.Validate]
  | c0 :: c1 :: rest =>
    simp only [Spot.Validate, List.length_cons, List.getElem?_cons_zero, List.getElem?_cons_succ,
      Option.some.injEq, exists_eq_left']
    split_ifs with h0 h1
    · simp only [false_iff, reduceCtorEq]
      rintro ⟨_, ⟨h65, h90⟩, _⟩
      rcases h0 with h | h
      · exact absurd h65 (not_le.mpr h)
      · exact absurd h90 (not_le.mpr h)
    · simp only [false_iff, reduceCtorEq]
      rintro ⟨_, _, ⟨h48, h57⟩⟩
      rcases h1 with h | h
      · exact absurd h48 (not_le.mpr h)
      · exact absurd h57 (not_le.mpr h)
    · simp only [true_iff]
      push_neg at h0 h1
      exact ⟨by omega, h0, h1⟩

/-- C1: `NewSpot(event, name)` returns a `nil` error exactly when the name has at least
two bytes, the first in `'A'..'Z'` and the second in `'0'..'9'`, whatever follows; and then
the spot it returns has `EventID = event.ID`, `Name = name`, the available status and an
empty `TicketId` (its `ID` being the generated one). -/
theorem NewSpot_succeeds_iff (uuid : GoString) (event : Event) (name : GoString) :
    ((NewSpot uuid event name).2 = none ↔
      2 ≤ name.length ∧ (∃ c0, name[0]? = some c0 ∧ 65 ≤ c0 ∧ c0 ≤ 90) ∧
        (∃ c1, name[1]? = some c1 ∧ 48 ≤ c1 ∧ c1 ≤ 57)) ∧
    ((NewSpot uuid event name).2 = none →
      (NewSpot uuid event name).1 =
        some { ID := uuid, EventID := event.ID, Name := name,
               Status := SpotStatusAvailable, TicketId := [] }) := by
  have key := Spot.Validate_eq_none_iff
    { ID := uuid, EventID := event.ID, Name := name, Status := SpotStatusAvailable, TicketId := [] }
  simp only at key
  unfold NewSpot
  simp only
  cases hv : Spot.Validate
    { ID := uuid, EventID := event.ID, Name := name, Status := SpotStatusAvailable, TicketId := [] } with
  | none => exact ⟨by simpa [hv] using key, fun _ => rfl⟩
  | some err =>
    refine ⟨?_, fun h => by simp at h⟩
    rw [hv] at key
    simp only [reduceCtorEq, false_iff] at key ⊢
    exact key

theorem Spot.Validate_congr {s t : Spot} (h : s.Name = t.Name) : s.Validate = t.Validate := by
  simp only [Spot.Validate, h]

theorem NewSpot_eq (uuid : GoString) (event : Event) (s : Spot) :
    NewSpot uuid event s.Name =
      match s.Validate with
      | some err => (none, some err)
      | none => (some ⟨uuid, event.ID, s.Name, SpotStatusAvailable, []⟩, none) := by
  have h : Spot.Validate ⟨uuid, event.ID, s.Name, SpotStatusAvailable, []⟩ = s.Validate :=
    Spot.Validate_congr rfl
  simp only [NewSpot, h]

theorem NewSpot_of_error {uuid : GoString} {event : Event} {s : Spot} {err : SpotError}
    (h : s.Validate = some err) : NewSpot uuid event s.Name = (none, some err) := by
  rw [NewSpot_eq, h]

/-- C2: the error of `Spot.Validate` is that of the first rule broken, in the order
empty, shorter than two bytes, first byte outside `'A'..'Z'`, second byte outside
`'0'..'9'`: the empty name gives `ErrSpotNameRequired`, a one-byte name
`ErrSpotNameTwoCharacters` whatever the byte, a bad first byte
`ErrSpotNameStartWithLetter` whatever the second, a good first and bad second byte
`ErrSpotNameEndWithNumber`; every rejection is one of the four, and `NewSpot` on the same
name returns that error and no spot. -/
theorem Validate_error_priority (uuid : GoString) (event : Event) (s : Spot) :
    (s.Name.length = 0 →
      s.Validate = some ErrSpotNameRequired ∧
      NewSpot uuid event s.Name = (none, some ErrSpotNameRequired)) ∧
    (s.Name.length = 1 →
      s.Validate = some ErrSpotNameTwoCharacters ∧
      NewSpot uuid event s.Name = (none, some ErrSpotNameTwoCharacters)) ∧
    (∀ c0, 2 ≤ s.Name.length → s.Name[0]? = some c0 → (c0 < 65 ∨ 90 < c0) →
      s.Validate = some ErrSpotNameStartWithLetter ∧
      NewSpot uuid event s.Name = (none, some ErrSpotNameStartWithLetter)) ∧
    (∀ c0 c1, s.Name[0]? = some c0 → 65 ≤ c0 → c0 ≤ 90 → s.Name[1]? = some c1 →
      (c1 < 48 ∨ 57 < c1) →
      s.Validate = some ErrSpotNameEndWithNumber ∧
      NewSpot uuid event s.Name = (none, some ErrSpotNameEndWithNumber)) ∧
    (∀ err, s.Validate = some err →
      (err = ErrSpotNameRequired ∨ err = ErrSpotNameTwoCharacters ∨
        err = ErrSpotNameStartWithLetter ∨ err = ErrSpotNameEndWithNumber) ∧
      NewSpot uuid event s.Name = (none, some err)) := by
  have hnew : ∀ err, s.Validate = some err →
      s.Validate = some err ∧ NewSpot uuid event s.Name = (none, some err) :=
    fun err h => ⟨h, NewSpot_of_error h⟩
  obtain ⟨i, e, name, st, t⟩ := s
  refine ⟨?_, ?_, ?_, ?_, ?_⟩
  · intro h
    match name, h, hnew with
    | [], _, hnew => exact hnew _ rfl
  · intro h
    match name, h, hnew with
    | [_], _, hnew => exact hnew _ rfl
  · intro c0 hlen h0 hc
    match name, hlen, h0, hnew with
    | a :: b :: rest, _, h0, hnew =>
      simp only [List.getElem?_cons_zero, Option.some.injEq] at h0
      subst h0
      exact hnew _ (by simp only [Spot.Validate, gt_iff_lt, hc, if_true])
  · intro c0 c1 h0 h65 h90 h1 hc
    match name, h0, h1, hnew with
    | a :: b :: rest, h0, h1, hnew =>
      simp only [List.getElem?_cons_zero, List.getElem?_cons_succ, Option.some.injEq] at h0 h1
      subst h0 h1
      have hn : ¬ (a < 65 ∨ a > 90) := by
        rintro (h | h)
        · exact absurd h65 (not_le.mpr h)
        · exact absurd h90 (not_le.mpr h)
      exact hnew _ (by simp only [Spot.Validate, hn, if_false, gt_iff_lt, hc, if_true])
  · intro err h
    refine ⟨?_, (hnew err h).2⟩
    match name, h with
    | [], h => simp [Spot.Validate] at h; simp [← h]
    | [_], h => simp [Spot.Validate] at h; simp [← h]
    | a :: b :: rest, h =>
      simp only [Spot.Validate] at h
      split_ifs at h <;> simp at h <;> simp [← h]

/-! ## Reservation -/

theorem Spot.addressedBy_reserve (s : Spot) (st : SpotStatus) (e i : GoString) :
    Spot.addressedBy { s with Status := st } e i = s.addressedBy e i := rfl

theorem Spot.addressedBy_of_ne {s : Spot} {e1 i1 e2 i2 : GoString}
    (h : s.addressedBy e1 i1 = true) (hne : (e1, i1) ≠ (e2, i2)) :
    s.addressedBy e2 i2 = false := by
  simp only [Spot.addressedBy, Bool.and_eq_true, decide_eq_true_eq] at h
  obtain ⟨h1, h2⟩ := h
  by_contra hc
  simp only [Spot.addressedBy, Bool.not_eq_false, Bool.and_eq_true, decide_eq_true_eq] at hc
  exact hne (by rw [← h1, ← h2, hc.1, hc.2])

/-- The three ways out of the loop, told apart by the first addressed spot. -/
theorem ReserveSpot.loop_spec (e i : GoString) (spots : List Spot) :
    (spots.find? (·.addressedBy e i) = none ∧ ReserveSpot.loop e i spots = .exhausted) ∨
    (∃ s, spots.find? (·.addressedBy e i) = some s ∧ s.Status = ascii "reserved" ∧
      ReserveSpot.loop e i spots = .conflict) ∨
    (∃ pre s post, spots = pre ++ s :: post ∧ (∀ x ∈ pre, x.addressedBy e i = false) ∧
      s.addressedBy e i = true ∧ s.Status ≠ ascii "reserved" ∧
      spots.find? (·.addressedBy e i) = some s ∧
      ReserveSpot.loop e i spots =
        .reserved (pre ++ { s with Status := ascii "reserved" } :: post)
          { s with Status := ascii "reserved" }) := by
  induction spots with
  | nil => exact Or.inl ⟨rfl, rfl⟩
  | cons a rest ih =>
    by_cases ha : a.addressedBy e i = true
    · by_cases hs : a.Status = ascii "reserved"
      · refine Or.inr (Or.inl ⟨a, ?_, hs, ?_⟩)
        · simp only [List.find?_cons, ha]
        · simp only [ReserveSpot.loop, ha, hs, if_true]
      · refine Or.inr (Or.inr ⟨[], a, rest, rfl, ?_, ha, hs, ?_, ?_⟩)
        · intro x hx
          cases hx
        · simp only [List.find?_cons, ha]
        · simp only [ReserveSpot.loop, ha, hs, if_true, if_false, List.nil_append]
    · have ha' : a.addressedBy e i = false := by simpa using ha
      rcases ih with ⟨hf, hl⟩ | ⟨s, hf, hs, hl⟩ | ⟨pre, s, post, hsp, hpre, hsa, hs, hf, hl⟩
      · refine Or.inl ⟨?_, ?_⟩
        · simp only [List.find?_cons, ha', hf]
        · simp only [ReserveSpot.loop, ha', hl, Bool.false_eq_true, if_false]
      · refine Or.inr (Or.inl ⟨s, ?_, hs, ?_⟩)
        · simp only [List.find?_cons, ha', hf]
        · simp only [ReserveSpot.loop, ha', hl, Bool.false_eq_true, if_false]
      · refine Or.inr (Or.inr ⟨a :: pre, s, post, ?_, ?_, hsa, hs, ?_, ?_⟩)
        · simp only [hsp, List.cons_append]
        · intro x hx
          rcases List.mem_cons.mp hx with rfl | hx
          · exact ha'
          · exact hpre x hx
        · simp only [List.find?_cons, ha', hf]
        · simp only [ReserveSpot.loop, ha', hl, Bool.false_eq_true, if_false, List.cons_append]

/-- C5: when no spot has both `EventID = eventID` and `ID = spotID`, `ReserveSpot` answers
404 "Spot not found for this event" and leaves the whole of `Data` as it was: no spot
changes and nothing is added to any event. -/
theorem ReserveSpot_not_found_unchanged (data : Data) (eventID spotID : GoString)
    (h : ∀ s ∈ data.Spots, ¬ (s.EventID = eventID ∧ s.ID = spotID)) :
    ReserveSpot data eventID spotID =
      (.error (ascii "Spot not found for this event") StatusNotFound, data) := by
  rcases ReserveSpot.loop_spec eventID spotID data.Spots with
    ⟨_, hl⟩ | ⟨s, hf, _, _⟩ | ⟨pre, s, post, hsp, _, hsa, _, _, _⟩
  · simp only [ReserveSpot, hl]
  · exfalso
    have hm := List.mem_of_find?_eq_some hf
    have hp := List.find?_some hf
    simp only [Spot.addressedBy, Bool.and_eq_true, decide_eq_true_eq] at hp
    exact h s hm hp
  · exfalso
    simp only [Spot.addressedBy, Bool.and_eq_true, decide_eq_true_eq] at hsa
    exact h s (by rw [hsp]; simp) hsa

/-- A request for a spot that has the status `"reserved"` is answered with a 409 and
changes nothing. -/
theorem conflict_of_reserved {d : Data} {e i : GoString}
    (h : ∃ s, d.Spots.find? (·.addressedBy e i) = some s ∧ s.Status = ascii "reserved") :
    ReserveSpot d e i = (.error (ascii "Spot already reserved") StatusConflict, d) := by
  obtain ⟨spot, hfind, hstatus⟩ := h
  rcases ReserveSpot.loop_spec e i d.Spots with
    ⟨hf, _⟩ | ⟨s, _, _, hl⟩ | ⟨pre, s, post, _, _, _, hs, hf, _⟩
  · rw [hf] at hfind
    cases hfind
  · simp only [ReserveSpot, hl]
  · rw [hf] at hfind
    cases hfind
    exact absurd hstatus hs

/-- C3 (as the handler does it): when the first spot addressed by `(eventID, spotID)`
has the status `"reserved"`, `ReserveSpot` answers 409 "Spot already reserved" and leaves
the whole of `Data` as it was. -/
theorem ReserveSpot_conflict_when_reserved (data : Data) (eventID spotID : GoString)
    (spot : Spot)
    (hfind : data.Spots.find? (·.addressedBy eventID spotID) = some spot)
    (hstatus : spot.Status = ascii "reserved") :
    ReserveSpot data eventID spotID =
      (.error (ascii "Spot already reserved") StatusConflict, data) :=
  conflict_of_reserved ⟨spot, hfind, hstatus⟩

/-- C4 (as the handler does it): when the first spot addressed by `(eventID, spotID)`
has any status other than `"reserved"`, an available one included, `ReserveSpot` answers
with that spot, its `Status` set to `"reserved"` and its `TicketId` and other fields as
they were; afterwards the stored spot is that same value, and the events (with their
tickets) are untouched. -/
theorem ReserveSpot_success_sets_reserved (data : Data) (eventID spotID : GoString) (spot : Spot)
    (hfind : data.Spots.find? (·.addressedBy eventID spotID) = some spot)
    (hstatus : spot.Status ≠ ascii "reserved") :
    (ReserveSpot data eventID spotID).1 = .json { spot with Status := ascii "reserved" } ∧
    (ReserveSpot data eventID spotID).2.Spots.find? (·.addressedBy eventID spotID) =
      some { spot with Status := ascii "reserved" } ∧
    (ReserveSpot data eventID spotID).2.Events = data.Events := by
  rcases ReserveSpot.loop_spec eventID spotID data.Spots with
    ⟨hf, _⟩ | ⟨s, hf, hs, _⟩ | ⟨pre, s, post, _, hpre, hsa, _, hf, hl⟩
  · rw [hf] at hfind
    cases hfind
  · rw [hf] at hfind
    cases hfind
    exact absurd hs hstatus
  · rw [hf] at hfind
    cases hfind
    refine ⟨by simp only [ReserveSpot, hl], ?_, by simp only [ReserveSpot, hl]⟩
    simp only [ReserveSpot, hl, List.find?_append, List.find?_cons]
    have hnone : List.find? (fun x => x.addressedBy eventID spotID) pre = none := by
      rw [List.find?_eq_none]
      intro x hx
      simp [hpre x hx]
    rw [hnone, Spot.addressedBy_reserve, hsa]
    rfl

/-- The three outcomes of `ReserveSpot`, told apart by the first addressed spot. -/
theorem ReserveSpot_cases (d : Data) (e i : GoString) :
    (d.Spots.find? (·.addressedBy e i) = none ∧
      ReserveSpot d e i = (.error (ascii "Spot not found for this event") StatusNotFound, d)) ∨
    (∃ s, d.Spots.find? (·.addressedBy e i) = some s ∧ s.Status = ascii "reserved" ∧
      ReserveSpot d e i = (.error (ascii "Spot already reserved") StatusConflict, d)) ∨
    (∃ pre s post, d.Spots = pre ++ s :: post ∧ (∀ x ∈ pre, x.addressedBy e i = false) ∧
      s.addressedBy e i = true ∧ s.Status ≠ ascii "reserved" ∧
      d.Spots.find? (·.addressedBy e i) = some s ∧
      ReserveSpot d e i =
        (.json { s with Status := ascii "reserved" },
          { d with Spots := pre ++ { s with Status := ascii "reserved" } :: post })) := by
  rcases ReserveSpot.loop_spec e i d.Spots with
    ⟨hf, hl⟩ | ⟨s, hf, hs, hl⟩ | ⟨pre, s, post, hsp, hpre, hsa, hs, hf, hl⟩
  · exact Or.inl ⟨hf, by simp only [ReserveSpot, hl]⟩
  · exact Or.inr (Or.inl ⟨s, hf, hs, by simp only [ReserveSpot, hl]⟩)
  · exact Or.inr (Or.inr ⟨pre, s, post, hsp, hpre, hsa, hs, hf, by simp only [ReserveSpot, hl]⟩)

/-- The response of `ReserveSpot` is read off the first addressed spot. -/
theorem ReserveSpot_fst (d : Data) (e i : GoString) :
    (ReserveSpot d e i).1 =
      match d.Spots.find? (·.addressedBy e i) with
      | none => .error (ascii "Spot not found for this event") StatusNotFound
      | some s =>
        if s.Status = ascii "reserved" then .error (ascii "Spot already reserved") StatusConflict
        else .json { s with Status := ascii "reserved" } := by
  rcases ReserveSpot_cases d e i with
    ⟨hf, hr⟩ | ⟨s, hf, hs, hr⟩ | ⟨pre, s, post, _, _, _, hs, hf, hr⟩
  · rw [hr, hf]
  · rw [hr, hf]
    simp only [hs, if_true]
  · rw [hr, hf]
    simp only [hs, if_false]

/-- Setting the status of a spot that `(e, i)` does not address leaves the first spot
addressed by `(e, i)` as it was. -/
theorem find?_addressedBy_update (pre post : List Spot) (s : Spot) (st : SpotStatus)
    (e i : GoString) (hs : s.addressedBy e i = false) :
    (pre ++ { s with Status := st } :: post).find? (·.addressedBy e i) =
      (pre ++ s :: post).find? (·.addressedBy e i) := by
  simp only [List.find?_append, List.find?_cons, Spot.addressedBy_reserve, hs]

/-- C10: a `ReserveSpot` call leaves the events alone and changes at most the `Status` of
the first spot addressed by `(eventID, spotID)`: the spots keep their number, order, `ID`,
`EventID`, `Name` and `TicketId`, and either the slice is unchanged or it differs in that
one element's status only; so the response to a reservation under any other
`(EventID, ID)` key is the same before and after the call. -/
theorem ReserveSpot_frame (data : Data) (eventID spotID : GoString) :
    (ReserveSpot data eventID spotID).2.Events = data.Events ∧
    (ReserveSpot data eventID spotID).2.Spots.map (fun s => (s.ID, s.EventID, s.Name, s.TicketId)) =
      data.Spots.map (fun s => (s.ID, s.EventID, s.Name, s.TicketId)) ∧
    ((ReserveSpot data eventID spotID).2.Spots = data.Spots ∨
      ∃ pre s post, data.Spots = pre ++ s :: post ∧
        (∀ x ∈ pre, x.addressedBy eventID spotID = false) ∧
        s.addressedBy eventID spotID = true ∧
        (ReserveSpot data eventID spotID).2.Spots =
          pre ++ { s with Status := ascii "reserved" } :: post) ∧
    (∀ eventID2 spotID2, (eventID2, spotID2) ≠ (eventID, spotID) →
      (ReserveSpot (ReserveSpot data eventID spotID).2 eventID2 spotID2).1 =
        (ReserveSpot data eventID2 spotID2).1) := by
  rcases ReserveSpot_cases data eventID spotID with
    ⟨_, hr⟩ | ⟨s, _, _, hr⟩ | ⟨pre, s, post, hsp, hpre, hsa, _, _, hr⟩
  · rw [hr]
    exact ⟨rfl, rfl, Or.inl rfl, fun _ _ _ => rfl⟩
  · rw [hr]
    exact ⟨rfl, rfl, Or.inl rfl, fun _ _ _ => rfl⟩
  · rw [hr]
    refine ⟨rfl, ?_, Or.inr ⟨pre, s, post, hsp, hpre, hsa, rfl⟩, ?_⟩
    · simp only [hsp, List.map_append, List.map_cons]
    · intro e2 i2 hne
      have hs2 : s.addressedBy e2 i2 = false :=
        Spot.addressedBy_of_ne hsa (fun h => hne h.symm)
      rw [ReserveSpot_fst, ReserveSpot_fst]
      simp only [hsp, find?_addressedBy_update pre post s (ascii "reserved") e2 i2 hs2]

/-! ## Sequential runs -/

theorem serve_cons (d : Data) (e i : GoString) (reqs : List (GoString × GoString)) :
    serve d ((e, i) :: reqs) =
      ((ReserveSpot d e i).1 :: (serve (ReserveSpot d e i).2 reqs).1,
        (serve (ReserveSpot d e i).2 reqs).2) := rfl

/-- A successful reservation leaves the addressed spot with the status `"reserved"`. -/
theorem reserved_after_success {d : Data} {e i : GoString} {spot : Spot}
    (h : (ReserveSpot d e i).1 = .json spot) :
    ∃ s, (ReserveSpot d e i).2.Spots.find? (·.addressedBy e i) = some s ∧
      s.Status = ascii "reserved" := by
  rcases ReserveSpot_cases d e i with
    ⟨_, hr⟩ | ⟨s, _, _, hr⟩ | ⟨pre, s, post, _, hpre, hsa, _, _, hr⟩
  · rw [hr] at h
    cases h
  · rw [hr] at h
    cases h
  · rw [hr]
    refine ⟨{ s with Status := ascii "reserved" }, ?_, rfl⟩
    have hnone : List.find? (fun x => x.addressedBy e i) pre = none := by
      rw [List.find?_eq_none]
      intro x hx
      simp [hpre x hx]
    simp only [List.find?_append, List.find?_cons, hnone, Spot.addressedBy_reserve, hsa]
    rfl

/-- No request, for any key, takes the status `"reserved"` away from the first spot
addressed by `(e, i)`. -/
theorem reserved_preserved {d : Data} {e i : GoString}
    (h : ∃ s, d.Spots.find? (·.addressedBy e i) = some s ∧ s.Status = ascii "reserved")
    (e2 i2 : GoString) :
    ∃ s, (ReserveSpot d e2 i2).2.Spots.find? (·.addressedBy e i) = some s ∧
      s.Status = ascii "reserved" := by
  rcases ReserveSpot_cases d e2 i2 with
    ⟨_, hr⟩ | ⟨s, _, _, hr⟩ | ⟨pre, s, post, hsp, _, hsa, hs, hf, hr⟩
  · rw [hr]
    exact h
  · rw [hr]
    exact h
  · rw [hr]
    by_cases hk : (e2, i2) = (e, i)
    · exfalso
      obtain ⟨s0, hf0, hs0⟩ := h
      cases hk
      rw [hf] at hf0
      cases hf0
      exact hs hs0
    · have hs2 : s.addressedBy e i = false := Spot.addressedBy_of_ne hsa hk
      simp only [find?_addressedBy_update pre post s (ascii "reserved") e i hs2]
      rw [← hsp]
      exact h

theorem reserved_serve {e i : GoString} (reqs : List (GoString × GoString)) :
    ∀ d : Data,
      (∃ s, d.Spots.find? (·.addressedBy e i) = some s ∧ s.Status = ascii "reserved") →
      ∃ s, (serve d reqs).2.Spots.find? (·.addressedBy e i) = some s ∧
        s.Status = ascii "reserved" := by
  induction reqs with
  | nil => exact fun d h => h
  | cons q reqs ih =>
    intro d h
    obtain ⟨e2, i2⟩ := q
    rw [serve_cons]
    exact ih _ (reserved_preserved h e2 i2)

/-- Once the spot is reserved, no request of a run is a success for its key. -/
theorem no_success_of_reserved {e i : GoString} (reqs : List (GoString × GoString)) :
    ∀ d : Data,
      (∃ s, d.Spots.find? (·.addressedBy e i) = some s ∧ s.Status = ascii "reserved") →
      (reqs.zip (serve d reqs).1).countP
        (fun p => decide (p.1 = (e, i)) && decide (p.2.status = StatusOK)) = 0 := by
  induction reqs with
  | nil => intro d _; rfl
  | cons q reqs ih =>
    intro d h
    obtain ⟨e2, i2⟩ := q
    rw [serve_cons]
    simp only [List.zip_cons_cons, List.countP_cons]
    rw [ih _ (reserved_preserved h e2 i2)]
    by_cases hk : (e2, i2) = (e, i)
    · cases hk
      rw [conflict_of_reserved h]
      simp [Response.status, StatusConflict, StatusOK]
    · simp [hk]

theorem json_of_status_ok {d : Data} {e i : GoString}
    (h : (ReserveSpot d e i).1.status = StatusOK) : ∃ spot, (ReserveSpot d e i).1 = .json spot := by
  rcases ReserveSpot_cases d e i with
    ⟨_, hr⟩ | ⟨s, _, _, hr⟩ | ⟨pre, s, post, _, _, _, _, _, hr⟩
  · rw [hr] at h
    simp [Response.status, StatusNotFound, StatusOK] at h
  · rw [hr] at h
    simp [Response.status, StatusConflict, StatusOK] at h
  · rw [hr]
    exact ⟨_, rfl⟩

theorem success_count_le_one {e i : GoString} (reqs : List (GoString × GoString)) :
    ∀ d : Data,
      (reqs.zip (serve d reqs).1).countP
        (fun p => decide (p.1 = (e, i)) && decide (p.2.status = StatusOK)) ≤ 1 := by
  induction reqs with
  | nil => intro d; simp [serve]
  | cons q reqs ih =>
    intro d
    obtain ⟨e2, i2⟩ := q
    rw [serve_cons]
    simp only [List.zip_cons_cons, List.countP_cons]
    by_cases hk : (e2, i2) = (e, i) ∧ (ReserveSpot d e2 i2).1.status = StatusOK
    · obtain ⟨hk, hok⟩ := hk
      cases hk
      obtain ⟨spot, hspot⟩ := json_of_status_ok hok
      rw [no_success_of_reserved reqs _ (reserved_after_success hspot)]
      simp [hok]
    · have := ih (ReserveSpot d e2 i2).2
      have h0 : (decide ((e2, i2) = (e, i)) && decide ((ReserveSpot d e2 i2).1.status = StatusOK))
          = false := by
        simpa [-Prod.mk.injEq] using hk
      simp only [h0, Bool.false_eq_true, if_false, Nat.add_zero]
      exact this

theorem forall₂_trans_of {α : Type} {R : α → α → Prop}
    (hR : ∀ a b c, R a b → R b c → R a c) :
    ∀ {l1 l2 l3 : List α}, List.Forall₂ R l1 l2 → List.Forall₂ R l2 l3 → List.Forall₂ R l1 l3
  | _, _, _, .nil, .nil => .nil
  | _, _, _, .cons h1 t1, .cons h2 t2 => .cons (hR _ _ _ h1 h2) (forall₂_trans_of hR t1 t2)

/-- What each spot of the slice keeps through a run: its place, its key, and the status
`"reserved"` once it has it. -/
theorem serve_spots_monotone (reqs : List (GoString × GoString)) :
    ∀ d : Data,
      List.Forall₂
        (fun a b => b.ID = a.ID ∧ b.EventID = a.EventID ∧
          (a.Status = ascii "reserved" → b.Status = ascii "reserved"))
        d.Spots (serve d reqs).2.Spots := by
  have hrefl : ∀ l : List Spot, List.Forall₂
      (fun a b => b.ID = a.ID ∧ b.EventID = a.EventID ∧
        (a.Status = ascii "reserved" → b.Status = ascii "reserved")) l l := by
    intro l
    induction l with
    | nil => exact .nil
    | cons a l ih => exact .cons ⟨rfl, rfl, id⟩ ih
  induction reqs with
  | nil => intro d; exact hrefl _
  | cons q reqs ih =>
    intro d
    obtain ⟨e2, i2⟩ := q
    rw [serve_cons]
    have hstep : List.Forall₂
        (fun a b => b.ID = a.ID ∧ b.EventID = a.EventID ∧
          (a.Status = ascii "reserved" → b.Status = ascii "reserved"))
        d.Spots (ReserveSpot d e2 i2).2.Spots := by
      rcases ReserveSpot_cases d e2 i2 with
        ⟨_, hr⟩ | ⟨s, _, _, hr⟩ | ⟨pre, s, post, hsp, _, _, _, _, hr⟩
      · rw [hr]; exact hrefl _
      · rw [hr]; exact hrefl _
      · rw [hr, hsp]
        exact List.rel_append (hrefl pre) (.cons ⟨rfl, rfl, fun _ => rfl⟩ (hrefl post))
    have hrest := ih (ReserveSpot d e2 i2).2
    exact forall₂_trans_of
      (fun a b c hab hbc => ⟨hbc.1.trans hab.1, hbc.2.1.trans hab.2.1, fun h => hbc.2.2 (hab.2.2 h)⟩)
      hstep hrest

/-- C6: in a sequential run, once `ReserveSpot` has succeeded for `(eventID, spotID)`,
the same request after any further requests `reqs` answers 409 "Spot already reserved"
and leaves `Data` as it finds it; in any run from any state at most one request for a
given key is answered with a success; and every spot of the slice keeps its place and
key, and keeps the status `"reserved"` once it has it. -/
theorem ReserveSpot_at_most_once (data : Data) (eventID spotID : GoString)
    (reqs : List (GoString × GoString)) :
    (∀ spot, (ReserveSpot data eventID spotID).1 = .json spot →
      ReserveSpot (serve (ReserveSpot data eventID spotID).2 reqs).2 eventID spotID =
        (.error (ascii "Spot already reserved") StatusConflict,
          (serve (ReserveSpot data eventID spotID).2 reqs).2)) ∧
    (reqs.zip (serve data reqs).1).countP
      (fun p => decide (p.1 = (eventID, spotID)) && decide (p.2.status = StatusOK)) ≤ 1 ∧
    List.Forall₂
      (fun a b => b.ID = a.ID ∧ b.EventID = a.EventID ∧
        (a.Status = ascii "reserved" → b.Status = ascii "reserved"))
      data.Spots (serve data reqs).2.Spots :=
  ⟨fun _ h => conflict_of_reserved (reserved_serve reqs _ (reserved_after_success h)),
    success_count_le_one reqs data, serve_spots_monotone reqs data⟩

/-! ## Interleaved runs -/

/-- The loop of `ReserveSpot` is its test followed at once by its write. -/
theorem ReserveSpot.loop_eq_test (e i : GoString) (spots : List Spot) :
    ReserveSpot.loop e i spots =
      match ReserveSpot.test e i spots with
      | .conflict => .conflict
      | .exhausted => .exhausted
      | .free n =>
        match spots[n]? with
        | some s =>
          .reserved (spots.set n { s with Status := ascii "reserved" })
            { s with Status := ascii "reserved" }
        | none => .exhausted := by
  induction spots with
  | nil => rfl
  | cons a rest ih =>
    by_cases ha : a.addressedBy e i = true
    · by_cases hs : a.Status = ascii "reserved"
      · simp only [ReserveSpot.loop, ReserveSpot.test, ha, hs, if_true]
      · simp only [ReserveSpot.loop, ReserveSpot.test, ha, hs, if_true, if_false,
          List.getElem?_cons_zero, List.set_cons_zero]
    · have ha0 : a.addressedBy e i = false := by simpa using ha
      simp only [ReserveSpot.loop, ReserveSpot.test, ha0, Bool.false_eq_true, if_false, ih]
      cases ht : ReserveSpot.test e i rest with
      | conflict => rfl
      | exhausted => rfl
      | free n =>
        simp only [List.getElem?_cons_succ, List.set_cons_succ]
        cases hn : rest[n]? with
        | none => rfl
        | some s => rfl

/-- A goroutine that takes its two steps with no other goroutine in between does what
`ReserveSpot` does: the cut of the handler at its test and its write loses nothing. -/
theorem Goroutine.step_step (d : Data) (e i : GoString) :
    Goroutine.step (Goroutine.step d (.start e i)).2 (Goroutine.step d (.start e i)).1 =
      (.done (ReserveSpot d e i).1, (ReserveSpot d e i).2) := by
  have hloop := ReserveSpot.loop_eq_test e i d.Spots
  cases ht : ReserveSpot.test e i d.Spots with
  | conflict =>
    simp only [ht] at hloop
    simp only [Goroutine.step, ht, ReserveSpot, hloop]
  | exhausted =>
    simp only [ht] at hloop
    simp only [Goroutine.step, ht, ReserveSpot, hloop]
  | free n =>
    simp only [ht] at hloop
    cases hn : d.Spots[n]? with
    | some s =>
      simp only [hn] at hloop
      simp only [Goroutine.step, ht, ReserveSpot.write, hn, ReserveSpot, hloop]
    | none =>
      exfalso
      -- the index found by the test is in range
      have hlt : ∀ (spots : List Spot) (n : Nat),
          ReserveSpot.test e i spots = .free n → n < spots.length := by
        intro spots
        induction spots with
        | nil => intro n h; simp [ReserveSpot.test] at h
        | cons a rest ih =>
          intro n h
          by_cases ha : a.addressedBy e i = true
          · by_cases hs : a.Status = ascii "reserved"
            · simp [ReserveSpot.test, ha, hs] at h
            · simp only [ReserveSpot.test, ha, hs, if_true, if_false,
                ReserveTest.free.injEq] at h
              subst h
              simp
          · have ha0 : a.addressedBy e i = false := by simpa using ha
            simp only [ReserveSpot.test, ha0, Bool.false_eq_true, if_false] at h
            cases hr : ReserveSpot.test e i rest with
            | conflict => rw [hr] at h; cases h
            | exhausted => rw [hr] at h; cases h
            | free k =>
              rw [hr] at h
              simp only [ReserveTest.free.injEq] at h
              subst h
              have := ih k hr
              simp only [List.length_cons]
              omega
      have := hlt d.Spots n ht
      rw [List.getElem?_eq_none_iff] at hn
      omega

/-- The test finds the first addressed spot, when its status is not `"reserved"`. -/
theorem ReserveSpot.test_free (e i : GoString) (spot : Spot) :
    ∀ spots : List Spot, spots.find? (·.addressedBy e i) = some spot →
      spot.Status ≠ ascii "reserved" →
      ∃ n, ReserveSpot.test e i spots = .free n ∧ spots[n]? = some spot := by
  intro spots
  induction spots with
  | nil => intro h; simp at h
  | cons a rest ih =>
    intro hfind hstatus
    by_cases ha : a.addressedBy e i = true
    · simp only [List.find?_cons, ha, Option.some.injEq] at hfind
      subst hfind
      exact ⟨0, by simp only [ReserveSpot.test, ha, hstatus, if_true, if_false],
        List.getElem?_cons_zero⟩
    · have ha0 : a.addressedBy e i = false := by simpa using ha
      simp only [List.find?_cons, ha0] at hfind
      obtain ⟨n, hn, hget⟩ := ih hfind hstatus
      exact ⟨n + 1, by simp only [ReserveSpot.test, ha0, Bool.false_eq_true, if_false, hn],
        by simpa using hget⟩

/-- Two requests for the same spot, whatever the state, when the spot is there and not
`"reserved"`: if both goroutines make the test before either writes, both are answered
with the spot. -/
theorem interleave_both_succeed (d : Data) (e i : GoString) (spot : Spot)
    (hfind : d.Spots.find? (·.addressedBy e i) = some spot)
    (hstatus : spot.Status ≠ ascii "reserved") :
    (interleave d [.start e i, .start e i] [0, 1, 0, 1]).1 =
      [.done (.json { spot with Status := ascii "reserved" }),
       .done (.json { spot with Status := ascii "reserved" })] := by
  obtain ⟨n, hn, hget⟩ := ReserveSpot.test_free e i spot d.Spots hfind hstatus
  have hlt : n < d.Spots.length := by
    by_contra hc
    rw [List.getElem?_eq_none (by omega)] at hget
    cases hget
  have hget2 : (d.Spots.set n { spot with Status := ascii "reserved" })[n]? =
      some { spot with Status := ascii "reserved" } := by
    rw [List.getElem?_set_self hlt]
  simp only [interleave, List.getElem?_cons_zero, List.getElem?_cons_succ, Goroutine.step, hn,
    List.set_cons_zero, List.set_cons_succ, ReserveSpot.write, hget, hget2]

/-! ## Go maps -/

theorem GoMap.get_set {V : Type} (m : GoMap V) (k k1 : GoString) (v : V) :
    (m.set k v).get k1 = if k = k1 then some v else m.get k1 := by
  induction m with
  | nil => simp only [GoMap.set, GoMap.get]
  | cons p m ih =>
    obtain ⟨k0, v0⟩ := p
    by_cases h0 : k0 = k
    · subst h0
      simp only [GoMap.set, if_true, GoMap.get]
      split_ifs <;> rfl
    · simp only [GoMap.set, h0, if_false, GoMap.get, ih]
      by_cases h1 : k0 = k1
      · subst h1
        have : ¬ k = k0 := fun h => h0 h.symm
        simp only [if_true, this, if_false]
      · simp only [h1, if_false]

theorem GoMap.get_eq_none_iff {V : Type} (m : GoMap V) (k : GoString) :
    m.get k = none ↔ k ∉ m.map Prod.fst := by
  induction m with
  | nil => simp [GoMap.get]
  | cons p m ih =>
    obtain ⟨k0, v0⟩ := p
    by_cases h0 : k0 = k
    · subst h0
      simp [GoMap.get]
    · have : ¬ k = k0 := fun h => h0 h.symm
      simp [GoMap.get, h0, ih, this]

theorem GoMap.mem_of_get {V : Type} {m : GoMap V} {k : GoString} {v : V}
    (h : m.get k = some v) : (k, v) ∈ m := by
  induction m with
  | nil => simp [GoMap.get] at h
  | cons p m ih =>
    obtain ⟨k0, v0⟩ := p
    by_cases h0 : k0 = k
    · subst h0
      simp only [GoMap.get, if_true, Option.some.injEq] at h
      subst h
      exact List.mem_cons_self _ _
    · simp only [GoMap.get, h0, if_false] at h
      exact List.mem_cons_of_mem _ (ih h)

theorem GoMap.get_of_mem {V : Type} {m : GoMap V} {k : GoString} {v : V}
    (hnd : (m.map Prod.fst).Nodup) (h : (k, v) ∈ m) : m.get k = some v := by
  induction m with
  | nil => cases h
  | cons p m ih =>
    obtain ⟨k0, v0⟩ := p
    simp only [List.map_cons, List.nodup_cons] at hnd
    rcases List.mem_cons.mp h with heq | hmem
    · cases heq
      simp only [GoMap.get, if_true]
    · have hk : k ∈ m.map Prod.fst := List.mem_map.mpr ⟨(k, v), hmem, rfl⟩
      have h0 : ¬ k0 = k := fun h => hnd.1 (h ▸ hk)
      simp only [GoMap.get, h0, if_false]
      exact ih hnd.2 hmem

theorem GoMap.mem_set {V : Type} {m : GoMap V} {k : GoString} {v : V} {p : GoString × V}
    (h : p ∈ m.set k v) : p = (k, v) ∨ p ∈ m := by
  induction m with
  | nil =>
    simp only [GoMap.set, List.mem_singleton] at h
    exact Or.inl h
  | cons q m ih =>
    obtain ⟨k0, v0⟩ := q
    by_cases h0 : k0 = k
    · subst h0
      simp only [GoMap.set, if_true, List.mem_cons] at h
      rcases h with h | h
      · exact Or.inl h
      · exact Or.inr (List.mem_cons_of_mem _ h)
    · simp only [GoMap.set, h0, if_false, List.mem_cons] at h
      rcases h with h | h
      · exact Or.inr (h ▸ List.mem_cons_self _ _)
      · rcases ih h with h | h
        · exact Or.inl h
        · exact Or.inr (List.mem_cons_of_mem _ h)

theorem GoMap.keys_set {V : Type} (m : GoMap V) (k : GoString) (v : V) :
    (m.set k v).map Prod.fst =
      if k ∈ m.map Prod.fst then m.map Prod.fst else m.map Prod.fst ++ [k] := by
  induction m with
  | nil => simp [GoMap.set]
  | cons q m ih =>
    obtain ⟨k0, v0⟩ := q
    by_cases h0 : k0 = k
    · subst h0
      simp [GoMap.set]
    · have : ¬ k = k0 := fun h => h0 h.symm
      simp only [GoMap.set, h0, if_false, List.map_cons, ih, List.mem_cons, this, false_or]
      split_ifs <;> simp

theorem GoMap.range_perm {V : Type} (m : GoMap V) :
    ∀ seed : List Nat, (GoMap.range seed m).Perm (m.map Prod.snd) := by
  induction m with
  | nil => intro seed; simp [GoMap.range]
  | cons q m ih =>
    intro seed
    obtain ⟨k0, v0⟩ := q
    simp only [GoMap.range, List.map_cons]
    refine (List.perm_insertIdx v0 _ ?_).trans ((ih seed.tail).cons v0)
    exact Nat.lt_succ_iff.mp (Nat.mod_lt _ (Nat.succ_pos _))

theorem insertIdx_length_append {V : Type} (v : V) (s t : List V) :
    (s ++ t).insertIdx s.length v = s ++ v :: t := by
  induction s with
  | nil => simp [List.insertIdx_zero]
  | cons a s ih => simp only [List.cons_append, List.length_cons, List.insertIdx_succ_cons, ih]

/-- Every order of the values is the order of the map range for some seed. -/
theorem GoMap.range_surjective {V : Type} (m : GoMap V) :
    ∀ l : List V, l.Perm (m.map Prod.snd) → ∃ seed, GoMap.range seed m = l := by
  induction m with
  | nil =>
    intro l hl
    exact ⟨[], by simpa [GoMap.range] using hl.symm⟩
  | cons q m ih =>
    intro l hl
    obtain ⟨k0, v0⟩ := q
    have hmem : v0 ∈ l := hl.mem_iff.mpr (by simp)
    obtain ⟨s, t, hst⟩ := List.append_of_mem hmem
    subst hst
    have hperm : (s ++ t).Perm (m.map Prod.snd) := by
      have h1 : (v0 :: (s ++ t)).Perm (v0 :: m.map Prod.snd) :=
        (List.perm_middle.symm).trans (by simpa using hl)
      exact h1.cons_inv
    obtain ⟨seed, hseed⟩ := ih (s ++ t) hperm
    refine ⟨s.length :: seed, ?_⟩
    have hlt : s.length % ((s ++ t).length + 1) = s.length := by
      apply Nat.mod_eq_of_lt
      simp only [List.length_append]
      omega
    simp only [GoMap.range, List.tail_cons, List.headD_cons, hseed, hlt,
      insertIdx_length_append]

/-! ## The row loop of `ListEvents` -/

theorem firstSpotRow_snoc (ps : List Row) (r : Row) (id : GoString) :
    firstSpotRow (ps ++ [r]) id =
      (firstSpotRow ps id).or (if r.hasSpot id then some r else none) := by
  simp only [firstSpotRow, List.find?_append, List.find?_cons, List.find?_nil]
  cases h : r.hasSpot id <;> simp

theorem firstSpotRow_snoc_of_some {ps : List Row} {id : GoString} {r0 : Row}
    (h : firstSpotRow ps id = some r0) (r : Row) : firstSpotRow (ps ++ [r]) id = some r0 := by
  rw [firstSpotRow_snoc, h]
  rfl

theorem firstSpotRow_snoc_of_not {r : Row} {id : GoString} (h : r.hasSpot id = false)
    (ps : List Row) : firstSpotRow (ps ++ [r]) id = firstSpotRow ps id := by
  rw [firstSpotRow_snoc, h]
  simp

theorem firstSpotRow_snoc_of_none {ps : List Row} {id : GoString} {r : Row}
    (h : firstSpotRow ps id = none) (hr : r.hasSpot id = true) :
    firstSpotRow (ps ++ [r]) id = some r := by
  rw [firstSpotRow_snoc, h, hr]
  rfl

theorem Row.hasSpot_iff (r : Row) (id : GoString) :
    r.hasSpot id = true ↔ r.skipped = false ∧ r.spotID.Valid = true ∧ r.spotID.String = id := by
  simp [Row.hasSpot, and_assoc]

theorem Row.hasTicketIn_iff (r : Row) (k : GoString) :
    r.hasTicketIn k = true ↔
      r.skipped = false ∧ r.eventID.String = k ∧ r.spotID.Valid = true ∧
        r.ticketID.Valid = true := by
  simp [Row.hasTicketIn, and_assoc]

theorem firstSpotRow_some {ps : List Row} {id : GoString} {r : Row}
    (h : firstSpotRow ps id = some r) :
    r ∈ ps ∧ r.skipped = false ∧ r.spotID.Valid = true ∧ r.spotID.String = id := by
  have hm := List.mem_of_find?_eq_some h
  have hp := List.find?_some h
  exact ⟨hm, (Row.hasSpot_iff r id).mp hp⟩

theorem firstSpotRow_of_mem {ps : List Row} {id : GoString} {r : Row}
    (hm : r ∈ ps) (hr : r.hasSpot id = true) : ∃ r0, firstSpotRow ps id = some r0 := by
  cases h : firstSpotRow ps id with
  | some r0 => exact ⟨r0, rfl⟩
  | none =>
    exfalso
    have := List.find?_eq_none.mp h r hm
    exact this hr

theorem ticketOf_snoc {ps : List Row} {r1 : Row} (hm : r1 ∈ ps) {k : GoString}
    (h1 : r1.hasTicketIn k = true) (r : Row) : ticketOf (ps ++ [r]) r1 = ticketOf ps r1 := by
  obtain ⟨hs, _, hv, _⟩ := (Row.hasTicketIn_iff r1 k).mp h1
  obtain ⟨r0, h0⟩ := firstSpotRow_of_mem hm ((Row.hasSpot_iff r1 _).mpr ⟨hs, hv, rfl⟩)
  simp only [ticketOf, firstSpotRow_snoc_of_some h0, h0]

theorem tickets_snoc (ps : List Row) (r : Row) (k : GoString) :
    ((ps ++ [r]).filter (fun r => r.hasTicketIn k)).map (ticketOf (ps ++ [r])) =
      (ps.filter (fun r => r.hasTicketIn k)).map (ticketOf ps) ++
        (if r.hasTicketIn k then [ticketOf (ps ++ [r]) r] else []) := by
  have hold : (ps.filter (fun r => r.hasTicketIn k)).map (ticketOf (ps ++ [r])) =
      (ps.filter (fun r => r.hasTicketIn k)).map (ticketOf ps) := by
    apply List.map_congr_left
    intro r1 h1
    obtain ⟨hm, hp⟩ := List.mem_filter.mp h1
    exact ticketOf_snoc hm hp r
  rw [List.filter_append, List.map_append, hold]
  cases h : r.hasTicketIn k <;> simp [List.filter_cons, h]

/-- A row that is skipped, or belongs to another event, leaves an event as it is. -/
theorem ListEvents.EventInv.snoc_other {ps : List Row} {k : GoString} {ev : Event}
    (h : ListEvents.EventInv ps k ev) {r : Row}
    (hr : r.skipped = true ∨ r.eventID.String ≠ k) :
    ListEvents.EventInv (ps ++ [r]) k ev := by
  have hticket : r.hasTicketIn k = false := by
    cases hc : r.hasTicketIn k with
    | false => rfl
    | true =>
      obtain ⟨hs, he, _, _⟩ := (Row.hasTicketIn_iff r k).mp hc
      rcases hr with hr | hr
      · rw [hs] at hr; cases hr
      · exact absurd he hr
  refine ⟨?_, h.spots_nodup, ?_, ?_⟩
  · intro sp hsp
    obtain ⟨r0, h0, hsp0, hk0⟩ := h.spots_first sp hsp
    exact ⟨r0, firstSpotRow_snoc_of_some h0 r, hsp0, hk0⟩
  · intro id r0 h0 hk0
    cases hps : firstSpotRow ps id with
    | some r1 =>
      rw [firstSpotRow_snoc_of_some hps] at h0
      have h01 : r1 = r0 := Option.some.inj h0
      subst h01
      exact h.spots_all id r1 hps hk0
    | none =>
      exfalso
      rw [firstSpotRow_snoc, hps] at h0
      cases hh : r.hasSpot id with
      | false => rw [hh] at h0; simp at h0
      | true =>
        rw [hh] at h0
        simp only [Option.none_or, if_true, Option.some.injEq] at h0
        subst h0
        rcases hr with hr | hr
        · rw [((Row.hasSpot_iff r id).mp hh).1] at hr; cases hr
        · exact hr hk0
  · rw [tickets_snoc, hticket, h.tickets]
    simp

/-- A freshly created event, when no processed row before has its ID. -/
theorem ListEvents.EventInv.fresh {ps : List Row} {k : GoString}
    (hnew : ¬ ∃ r ∈ ps, r.skipped = false ∧ r.eventID.String = k) (r : Row) (t : Time) :
    ListEvents.EventInv ps k (r.event t) := by
  refine ⟨?_, ?_, ?_, ?_⟩
  · intro sp hsp
    simp [Row.event] at hsp
  · simp [Row.event]
  · intro id r0 h0 hk0
    exfalso
    obtain ⟨hm, hs, _, _⟩ := firstSpotRow_some h0
    exact hnew ⟨r0, hm, hs, hk0⟩
  · have : ps.filter (fun r => r.hasTicketIn k) = [] := by
      rw [List.filter_eq_nil_iff]
      intro r0 hm hc
      obtain ⟨hs, he, _, _⟩ := (Row.hasTicketIn_iff r0 k).mp hc
      exact hnew ⟨r0, hm, hs, he⟩
    rw [this]
    rfl

/-- A row of the event whose spot is already in `spotMap`, or that has no spot. -/
theorem ListEvents.EventInv.same_spots {ps : List Row} {k : GoString} {ev ev1 : Event}
    (h : ListEvents.EventInv ps k ev) {r : Row}
    (hfs : ∀ id, firstSpotRow (ps ++ [r]) id = firstSpotRow ps id)
    (hspots : ev1.Spots = ev.Spots)
    (htickets : ev1.Tickets =
      ev.Tickets ++ (if r.hasTicketIn k then [ticketOf (ps ++ [r]) r] else [])) :
    ListEvents.EventInv (ps ++ [r]) k ev1 := by
  refine ⟨?_, ?_, ?_, ?_⟩
  · intro sp hsp
    rw [hspots] at hsp
    obtain ⟨r0, h0, hsp0, hk0⟩ := h.spots_first sp hsp
    exact ⟨r0, (hfs _).trans h0, hsp0, hk0⟩
  · rw [hspots]
    exact h.spots_nodup
  · intro id r0 h0 hk0
    rw [hspots]
    rw [hfs] at h0
    exact h.spots_all id r0 h0 hk0
  · rw [htickets, tickets_snoc, h.tickets]

/-- A row of the event that brings a spot not yet in `spotMap`. -/
theorem ListEvents.EventInv.new_spot {ps : List Row} {k : GoString} {ev ev1 : Event}
    (h : ListEvents.EventInv ps k ev) {r : Row}
    (hr : r.hasSpot r.spotID.String = true) (hk : r.eventID.String = k)
    (hnone : firstSpotRow ps r.spotID.String = none)
    (hspots : ev1.Spots = ev.Spots ++ [r.spot])
    (htickets : ev1.Tickets =
      ev.Tickets ++ (if r.hasTicketIn k then [ticketOf (ps ++ [r]) r] else [])) :
    ListEvents.EventInv (ps ++ [r]) k ev1 := by
  refine ⟨?_, ?_, ?_, ?_⟩
  · intro sp hsp
    rw [hspots] at hsp
    rcases List.mem_append.mp hsp with hsp | hsp
    · obtain ⟨r0, h0, hsp0, hk0⟩ := h.spots_first sp hsp
      exact ⟨r0, firstSpotRow_snoc_of_some h0 r, hsp0, hk0⟩
    · rw [List.mem_singleton] at hsp
      subst hsp
      exact ⟨r, firstSpotRow_snoc_of_none hnone hr, rfl, hk⟩
  · rw [hspots, List.map_append, List.nodup_append]
    refine ⟨h.spots_nodup, by simp, ?_⟩
    intro a ha hb
    simp only [List.map_cons, List.map_nil, List.mem_singleton] at hb
    obtain ⟨sp, hsp, hid⟩ := List.mem_map.mp ha
    obtain ⟨r0, h0, _, _⟩ := h.spots_first sp hsp
    have hid2 : sp.ID = r.spotID.String := by
      rw [hid, hb]
      rfl
    rw [hid2, hnone] at h0
    cases h0
  · intro id r0 h0 hk0
    rw [hspots]
    cases hps : firstSpotRow ps id with
    | some r1 =>
      rw [firstSpotRow_snoc_of_some hps] at h0
      have h01 : r1 = r0 := Option.some.inj h0
      subst h01
      exact List.mem_append_left _ (h.spots_all id r1 hps hk0)
    | none =>
      rw [firstSpotRow_snoc, hps] at h0
      cases hh : r.hasSpot id with
      | false => rw [hh] at h0; simp at h0
      | true =>
        rw [hh] at h0
        simp only [Option.none_or, if_true, Option.some.injEq] at h0
        subst h0
        exact List.mem_append_right _ (List.mem_singleton_self _)
  · rw [htickets, tickets_snoc, h.tickets]

/-- The `if spotID.Valid` block keeps the reading of the event and of `spotMap`. -/
theorem ListEvents.spots_inv {ps : List Row} {k : GoString} {ev : Event} {sm : GoMap Spot}
    {r : Row} (hev : ListEvents.EventInv ps k ev) (hs : r.skipped = false)
    (hk : r.eventID.String = k)
    (hsm : ∀ id, sm.get id = (firstSpotRow ps id).map Row.spot) :
    ListEvents.EventInv (ps ++ [r]) k (ListEvents.spots sm r ev).1 ∧
    (∀ id, (ListEvents.spots sm r ev).2.get id = (firstSpotRow (ps ++ [r]) id).map Row.spot) ∧
    (ListEvents.spots sm r ev).1.ID = ev.ID := by
  cases hv : r.spotID.Valid with
  | false =>
    have hno : ∀ id, r.hasSpot id = false := by
      intro id
      simp [Row.hasSpot, hv]
    have hfs : ∀ id, firstSpotRow (ps ++ [r]) id = firstSpotRow ps id :=
      fun id => firstSpotRow_snoc_of_not (hno id) ps
    have hnt : r.hasTicketIn k = false := by simp [Row.hasTicketIn, hv]
    simp only [ListEvents.spots, hv, Bool.false_eq_true, if_false]
    refine ⟨hev.same_spots hfs rfl (by simp [hnt]), ?_, trivial⟩
    intro id
    rw [hfs, hsm]
  | true =>
    have hr : r.hasSpot r.spotID.String = true := (Row.hasSpot_iff _ _).mpr ⟨hs, hv, rfl⟩
    cases hg : sm.get r.spotID.String with
    | some spot =>
      have hg2 := hsm r.spotID.String
      rw [hg] at hg2
      cases h0 : firstSpotRow ps r.spotID.String with
      | none => rw [h0] at hg2; cases hg2
      | some r0 =>
        rw [h0] at hg2
        simp only [Option.map_some', Option.some.injEq] at hg2
        have hfs : ∀ id, firstSpotRow (ps ++ [r]) id = firstSpotRow ps id := by
          intro id
          cases hh : r.hasSpot id with
          | false => exact firstSpotRow_snoc_of_not hh ps
          | true =>
            have hid : r.spotID.String = id := ((Row.hasSpot_iff _ _).mp hh).2.2
            subst hid
            rw [firstSpotRow_snoc_of_some h0, h0]
        have hto : ticketOf (ps ++ [r]) r = r.ticket spot := by
          simp only [ticketOf, hfs, h0, Option.map_some', Option.getD_some, hg2]
        cases ht : r.ticketID.Valid with
        | false =>
          have hnt : r.hasTicketIn k = false := by simp [Row.hasTicketIn, ht]
          simp only [ListEvents.spots, hv, hg, ht, if_true, Bool.false_eq_true, if_false]
          refine ⟨hev.same_spots hfs rfl (by simp [hnt]), ?_, trivial⟩
          intro id
          rw [hfs, hsm]
        | true =>
          have hnt : r.hasTicketIn k = true := (Row.hasTicketIn_iff _ _).mpr ⟨hs, hk, hv, ht⟩
          simp only [ListEvents.spots, hv, hg, ht, if_true]
          refine ⟨hev.same_spots hfs rfl (by simp [hnt, hto]), ?_, trivial⟩
          intro id
          rw [hfs, hsm]
    | none =>
      have hg2 := hsm r.spotID.String
      rw [hg] at hg2
      have hnone : firstSpotRow ps r.spotID.String = none := by
        cases h0 : firstSpotRow ps r.spotID.String with
        | none => rfl
        | some r0 => rw [h0] at hg2; cases hg2
      have hnew : firstSpotRow (ps ++ [r]) r.spotID.String = some r :=
        firstSpotRow_snoc_of_none hnone hr
      have hto : ticketOf (ps ++ [r]) r = r.ticket r.spot := by
        simp only [ticketOf, hnew, Option.map_some', Option.getD_some]
      have hget : ∀ id, (sm.set r.spotID.String r.spot).get id =
          (firstSpotRow (ps ++ [r]) id).map Row.spot := by
        intro id
        rw [GoMap.get_set]
        by_cases hid : r.spotID.String = id
        · subst hid
          simp only [if_true, hnew, Option.map_some']
        · have hh : r.hasSpot id = false := by
            simp [Row.hasSpot, hid]
          simp only [hid, if_false, firstSpotRow_snoc_of_not hh, hsm]
      cases ht : r.ticketID.Valid with
      | false =>
        have hnt : r.hasTicketIn k = false := by simp [Row.hasTicketIn, ht]
        simp only [ListEvents.spots, hv, hg, ht, if_true, Bool.false_eq_true, if_false]
        exact ⟨hev.new_spot hr hk hnone rfl (by simp [hnt]), hget, trivial⟩
      | true =>
        have hnt : r.hasTicketIn k = true := (Row.hasTicketIn_iff _ _).mpr ⟨hs, hk, hv, ht⟩
        simp only [ListEvents.spots, hv, hg, ht, if_true]
        exact ⟨hev.new_spot hr hk hnone rfl (by simp [hnt, hto]), hget, trivial⟩

theorem ListEvents.Inv.empty : ListEvents.Inv [] ⟨[], []⟩ := by
  refine ⟨List.nodup_nil, ?_, ?_, ?_, ?_⟩
  · intro p hp
    cases hp
  · intro k
    simp
  · intro id
    rfl
  · intro k ev h
    simp [GoMap.get] at h

/-- One turn of the row loop, on a row whose date parses if it is parsed at all, succeeds
and keeps the reading of the two maps. -/
theorem ListEvents.step_inv {parse : GoString → Except Error Time} {ps : List Row} {m : Maps}
    {r : Row} (h : ListEvents.Inv ps m)
    (hd : r.skipped = false → m.eventMap.get r.eventID.String = none →
      ∃ t, parse r.eventDate.String = .ok t) :
    ∃ m1, ListEvents.step parse m r = .ok m1 ∧ ListEvents.Inv (ps ++ [r]) m1 := by
  cases hs : r.skipped with
  | true =>
    refine ⟨m, by simp only [ListEvents.step, hs, if_true], h.keys_nodup, h.id_eq, ?_, ?_, ?_⟩
    · intro k
      rw [h.keys_iff]
      constructor
      · rintro ⟨r0, hm, h0⟩
        exact ⟨r0, List.mem_append_left _ hm, h0⟩
      · rintro ⟨r0, hm, h0, hk0⟩
        rcases List.mem_append.mp hm with hm | hm
        · exact ⟨r0, hm, h0, hk0⟩
        · rw [List.mem_singleton] at hm
          subst hm
          rw [hs] at h0
          cases h0
    · intro id
      have hh : r.hasSpot id = false := by simp [Row.hasSpot, hs]
      rw [firstSpotRow_snoc_of_not hh, h.spot_get]
    · intro k ev hget
      exact (h.events k ev hget).snoc_other (Or.inl hs)
  | false =>
    -- the event `event` points to after the `if !exists` block
    have hevent : ∃ ev, ListEvents.event parse m.eventMap r = .ok ev ∧
        ListEvents.EventInv ps r.eventID.String ev ∧ ev.ID = r.eventID.String := by
      cases hg : m.eventMap.get r.eventID.String with
      | some ev =>
        refine ⟨ev, by simp only [ListEvents.event, hg], h.events _ ev hg, ?_⟩
        exact h.id_eq _ (GoMap.mem_of_get hg)
      | none =>
        obtain ⟨t, ht⟩ := hd hs hg
        refine ⟨r.event t, by simp only [ListEvents.event, hg, ht], ?_, rfl⟩
        apply ListEvents.EventInv.fresh
        rw [← h.keys_iff]
        exact (GoMap.get_eq_none_iff _ _).mp hg
    obtain ⟨ev, hev, hinv, hid⟩ := hevent
    obtain ⟨hinv1, hsm1, hid1⟩ := ListEvents.spots_inv hinv hs rfl h.spot_get
    refine ⟨⟨m.eventMap.set r.eventID.String (ListEvents.spots m.spotMap r ev).1,
      (ListEvents.spots m.spotMap r ev).2⟩, ?_, ?_, ?_, ?_, hsm1, ?_⟩
    · simp only [ListEvents.step, hs, Bool.false_eq_true, if_false, hev]
    · simp only [GoMap.keys_set]
      split_ifs with hmem
      · exact h.keys_nodup
      · rw [List.nodup_append]
        refine ⟨h.keys_nodup, by simp, ?_⟩
        intro a ha hb
        rw [List.mem_singleton] at hb
        subst hb
        exact hmem ha
    · intro p hp
      rcases GoMap.mem_set hp with hp | hp
      · subst hp
        simp only
        rw [hid1, hid]
      · exact h.id_eq p hp
    · intro k
      have hkeys : k ∈ (m.eventMap.set r.eventID.String
          (ListEvents.spots m.spotMap r ev).1).map Prod.fst ↔
          k ∈ m.eventMap.map Prod.fst ∨ k = r.eventID.String := by
        rw [GoMap.keys_set]
        split_ifs with hmem
        · constructor
          · exact Or.inl
          · rintro (h1 | h1)
            · exact h1
            · rw [h1]; exact hmem
        · simp only [List.mem_append, List.mem_singleton]
      rw [hkeys, h.keys_iff]
      constructor
      · rintro (⟨r0, hm, h0⟩ | hk)
        · exact ⟨r0, List.mem_append_left _ hm, h0⟩
        · exact ⟨r, List.mem_append_right _ (List.mem_singleton_self _), hs, hk.symm⟩
      · rintro ⟨r0, hm, h0, hk0⟩
        rcases List.mem_append.mp hm with hm | hm
        · exact Or.inl ⟨r0, hm, h0, hk0⟩
        · rw [List.mem_singleton] at hm
          subst hm
          exact Or.inr hk0.symm
    · intro k ev1 hget
      simp only [GoMap.get_set] at hget
      by_cases hk : r.eventID.String = k
      · subst hk
        simp only [if_true, Option.some.injEq] at hget
        subst hget
        exact hinv1
      · simp only [hk, if_false] at hget
        exact (h.events k ev1 hget).snoc_other (Or.inr hk)

/-- A turn of the row loop that does not return keeps the reading of the two maps. -/
theorem ListEvents.step_inv_of_ok {parse : GoString → Except Error Time} {ps : List Row}
    {m m1 : Maps} {r : Row} (h : ListEvents.Inv ps m)
    (hstep : ListEvents.step parse m r = .ok m1) : ListEvents.Inv (ps ++ [r]) m1 := by
  have hd : r.skipped = false → m.eventMap.get r.eventID.String = none →
      ∃ t, parse r.eventDate.String = .ok t := by
    intro hs hg
    cases hp : parse r.eventDate.String with
    | ok t => exact ⟨t, rfl⟩
    | error e =>
      simp [ListEvents.step, hs, ListEvents.event, hg, hp] at hstep
  obtain ⟨m2, hstep2, h2⟩ := ListEvents.step_inv h hd
  rw [hstep] at hstep2
  cases hstep2
  exact h2

/-- A row loop that runs to its end has scanned every row, and leaves the two maps as
the rows say. -/
theorem ListEvents.loop_inv_of_ok {parse : GoString → Except Error Time}
    (scans : List (Except Error Row)) :
    ∀ (ps : List Row) (m m1 : Maps), ListEvents.Inv ps m →
      ListEvents.loop parse m scans = .ok m1 →
      ∃ rows, scans = rows.map Except.ok ∧ ListEvents.Inv (ps ++ rows) m1 := by
  induction scans with
  | nil =>
    intro ps m m1 h hloop
    simp only [ListEvents.loop, Except.ok.injEq] at hloop
    subst hloop
    exact ⟨[], rfl, by simpa using h⟩
  | cons sc scans ih =>
    intro ps m m1 h hloop
    cases sc with
    | error e => simp [ListEvents.loop] at hloop
    | ok r =>
      cases hstep : ListEvents.step parse m r with
      | error e => simp [ListEvents.loop, hstep] at hloop
      | ok m2 =>
        simp only [ListEvents.loop, hstep] at hloop
        obtain ⟨rows, hrows, hinv⟩ :=
          ih (ps ++ [r]) m2 m1 (ListEvents.step_inv_of_ok h hstep) hloop
        exact ⟨r :: rows, by simp [hrows], by simpa using hinv⟩

/-- The row loop, on rows that all scan and whose dates parse, runs to its end and
leaves the two maps as the rows say. -/
theorem ListEvents.loop_inv {parse : GoString → Except Error Time} (rest : List Row) :
    ∀ (ps : List Row) (m : Maps), ListEvents.Inv ps m →
      (∀ r ∈ rest, r.skipped = false → ∃ t, parse r.eventDate.String = .ok t) →
      ∃ m1, ListEvents.loop parse m (rest.map Except.ok) = .ok m1 ∧
        ListEvents.Inv (ps ++ rest) m1 := by
  induction rest with
  | nil =>
    intro ps m h _
    exact ⟨m, rfl, by simpa using h⟩
  | cons r rest ih =>
    intro ps m h hd
    obtain ⟨m1, hstep, h1⟩ :=
      ListEvents.step_inv h (fun hs _ => hd r (List.mem_cons_self _ _) hs)
    obtain ⟨m2, hloop, h2⟩ := ih (ps ++ [r]) m1 h1
      (fun r0 hm => hd r0 (List.mem_cons_of_mem _ hm))
    refine ⟨m2, ?_, by simpa using h2⟩
    simp only [List.map_cons, ListEvents.loop, hstep, hloop]

/-- On rows that all scan and whose dates parse, with no driver error, `ListEvents`
returns the events of the final `eventMap`, in the order of the map range. -/
theorem ListEvents_ok {parse : GoString → Except Error Time} (seed : List Nat)
    (rows : List Row)
    (hd : ∀ r ∈ rows, r.skipped = false → ∃ t, parse r.eventDate.String = .ok t) :
    ∃ m, ListEvents.Inv rows m ∧
      ListEvents parse seed (.ok ⟨rows.map Except.ok, none⟩) =
        (some (GoMap.range seed m.eventMap), none) := by
  obtain ⟨m, hloop, hinv⟩ := ListEvents.loop_inv rows [] ⟨[], []⟩ ListEvents.Inv.empty hd
  refine ⟨m, by simpa using hinv, ?_⟩
  simp only [ListEvents, hloop]

/-- When `ListEvents` returns events, every row was scanned, there was no driver error,
and the events are those of the final `eventMap`, in the order of the map range. -/
theorem ListEvents_of_ok {parse : GoString → Except Error Time} {seed : List Nat}
    {query : Except Error Rows} {events : List Event}
    (h : (ListEvents parse seed query).1 = some events) :
    ∃ rows m, query = .ok ⟨rows.map Except.ok, none⟩ ∧ ListEvents.Inv rows m ∧
      events = GoMap.range seed m.eventMap := by
  cases query with
  | error e => simp [ListEvents] at h
  | ok rs =>
    obtain ⟨scans, err⟩ := rs
    cases hloop : ListEvents.loop parse ⟨[], []⟩ scans with
    | error e => simp [ListEvents, hloop] at h
    | ok m =>
      cases err with
      | some e => simp [ListEvents, hloop] at h
      | none =>
        simp only [ListEvents, hloop, Option.some.injEq] at h
        obtain ⟨rows, hrows, hinv⟩ :=
          ListEvents.loop_inv_of_ok scans [] ⟨[], []⟩ m ListEvents.Inv.empty hloop
        exact ⟨rows, m, by rw [hrows], by simpa using hinv, h.symm⟩

/-- The IDs of the events of a map range are the keys of the map, in some order. -/
theorem range_ids_perm {rows : List Row} {m : Maps} (h : ListEvents.Inv rows m)
    (seed : List Nat) :
    ((GoMap.range seed m.eventMap).map (fun ev => ev.ID)).Perm (m.eventMap.map Prod.fst) := by
  have h1 := (GoMap.range_perm m.eventMap seed).map (fun ev : Event => ev.ID)
  have h2 : (m.eventMap.map Prod.snd).map (fun ev : Event => ev.ID) = m.eventMap.map Prod.fst := by
    rw [List.map_map]
    apply List.map_congr_left
    intro p hp
    exact h.id_eq p hp
  rw [h2] at h1
  exact h1

/-- Every event of a map range is the value stored under its own ID. -/
theorem range_event_inv {rows : List Row} {m : Maps} (h : ListEvents.Inv rows m)
    (seed : List Nat) {ev : Event} (hev : ev ∈ GoMap.range seed m.eventMap) :
    ListEvents.EventInv rows ev.ID ev := by
  have hmem : ev ∈ m.eventMap.map Prod.snd := (GoMap.range_perm m.eventMap seed).mem_iff.mp hev
  obtain ⟨p, hp, hpe⟩ := List.mem_map.mp hmem
  obtain ⟨k, v⟩ := p
  simp only at hpe
  subst hpe
  have hid : v.ID = k := h.id_eq _ hp
  rw [hid]
  exact h.events k v (GoMap.get_of_mem h.keys_nodup hp)

/-- On rows that all scan, whose dates parse and in which each spot ID occurs under a
single event, `ListEvents` returns events: one for each event ID of the processed rows,
with distinct IDs; and for each of them the spots have distinct IDs, which are exactly the
spot IDs of the processed rows of that event, each spot being the one built from the
first processed row carrying its ID, with an empty `TicketId`; the tickets are, in row
order, one per processed row of the event that carries a spot and a ticket, each
referencing the spot of the event with the spot ID of its row; and when, as in a LEFT JOIN
chain, a row with a ticket always has a spot, that is one ticket per processed row whose
ticket ID is not NULL. -/
theorem ListEvents_graph (parse : GoString → Except Error Time) (seed : List Nat)
    (rows : List Row)
    (hdates : ∀ r ∈ rows, r.skipped = false → ∃ t, parse r.eventDate.String = .ok t)
    (hsingle : ∀ r1 ∈ rows, ∀ r2 ∈ rows, r1.skipped = false → r2.skipped = false →
      r1.spotID.Valid = true → r2.spotID.Valid = true →
      r1.spotID.String = r2.spotID.String → r1.eventID.String = r2.eventID.String) :
    ∃ events, ListEvents parse seed (.ok ⟨rows.map Except.ok, none⟩) = (some events, none) ∧
      (events.map (fun ev => ev.ID)).Nodup ∧
      (∀ r ∈ rows, r.skipped = false → ∃ ev ∈ events, ev.ID = r.eventID.String) ∧
      ∀ ev ∈ events,
        (∃ r ∈ rows, r.skipped = false ∧ r.eventID.String = ev.ID) ∧
        (ev.Spots.map (fun sp => sp.ID)).Nodup ∧
        (∀ id, id ∈ ev.Spots.map (fun sp => sp.ID) ↔
          ∃ r ∈ rows, r.skipped = false ∧ r.eventID.String = ev.ID ∧
            r.spotID.Valid = true ∧ r.spotID.String = id) ∧
        (ev.Spots.map (fun sp => sp.ID)).Perm
          ((rows.filter (fun r =>
              !r.skipped && decide (r.eventID.String = ev.ID) && r.spotID.Valid)).map
            (fun r => r.spotID.String)).dedup ∧
        (∀ sp ∈ ev.Spots, ∃ r, firstSpotRow rows sp.ID = some r ∧ sp = r.spot ∧
          sp.TicketId = []) ∧
        ev.Tickets = (rows.filter (fun r => r.hasTicketIn ev.ID)).map (ticketOf rows) ∧
        (∀ r ∈ rows, r.hasTicketIn ev.ID = true →
          ∃ sp ∈ ev.Spots, sp.ID = r.spotID.String ∧ (ticketOf rows r).Spot = some sp ∧
            (ticketOf rows r).ID = r.ticketID.String) ∧
        ((∀ r ∈ rows, r.ticketID.Valid = true → r.spotID.Valid = true) →
          ev.Tickets =
            (rows.filter (fun r =>
              !r.skipped && decide (r.eventID.String = ev.ID) && r.ticketID.Valid)).map
              (ticketOf rows)) := by
  obtain ⟨m, hinv, hres⟩ := ListEvents_ok seed rows hdates
  have hperm := range_ids_perm hinv seed
  refine ⟨GoMap.range seed m.eventMap, hres, hperm.nodup_iff.mpr hinv.keys_nodup, ?_, ?_⟩
  · intro r hm hs
    have hk : r.eventID.String ∈ (GoMap.range seed m.eventMap).map (fun ev => ev.ID) :=
      hperm.mem_iff.mpr ((hinv.keys_iff _).mpr ⟨r, hm, hs, rfl⟩)
    obtain ⟨ev, hev, hid⟩ := List.mem_map.mp hk
    exact ⟨ev, hev, hid⟩
  intro ev hev
  have h := range_event_inv hinv seed hev
  have hmemiff : ∀ id, id ∈ ev.Spots.map (fun sp => sp.ID) ↔
      ∃ r ∈ rows, r.skipped = false ∧ r.eventID.String = ev.ID ∧
        r.spotID.Valid = true ∧ r.spotID.String = id := by
    intro id
    constructor
    · intro hid
      obtain ⟨sp, hsp, hspid⟩ := List.mem_map.mp hid
      obtain ⟨r, hr, hsp0, hk⟩ := h.spots_first sp hsp
      obtain ⟨hm, hs, hv, hrid⟩ := firstSpotRow_some hr
      exact ⟨r, hm, hs, hk, hv, by rw [hrid, ← hspid]⟩
    · rintro ⟨r, hm, hs, hk, hv, hrid⟩
      obtain ⟨r0, h0⟩ := firstSpotRow_of_mem hm ((Row.hasSpot_iff r id).mpr ⟨hs, hv, hrid⟩)
      obtain ⟨hm0, hs0, hv0, hid0⟩ := firstSpotRow_some h0
      have hk0 : r0.eventID.String = ev.ID :=
        (hsingle r0 hm0 r hm hs0 hs hv0 hv (hid0.trans hrid.symm)).trans hk
      exact List.mem_map.mpr ⟨r0.spot, h.spots_all id r0 h0 hk0, hid0⟩
  refine ⟨?_, h.spots_nodup, hmemiff, ?_, ?_, h.tickets, ?_, ?_⟩
  · have hk : ev.ID ∈ m.eventMap.map Prod.fst :=
      hperm.mem_iff.mp (List.mem_map.mpr ⟨ev, hev, rfl⟩)
    exact (hinv.keys_iff _).mp hk
  · rw [List.perm_ext_iff_of_nodup h.spots_nodup (List.nodup_dedup _)]
    intro id
    rw [hmemiff, List.mem_dedup, List.mem_map]
    constructor
    · rintro ⟨r, hm, hs, hk, hv, hrid⟩
      exact ⟨r, List.mem_filter.mpr ⟨hm, by simp [hs, hk, hv]⟩, hrid⟩
    · rintro ⟨r, hr, hrid⟩
      obtain ⟨hm, hp⟩ := List.mem_filter.mp hr
      simp only [Bool.and_eq_true, Bool.not_eq_true', decide_eq_true_eq] at hp
      exact ⟨r, hm, hp.1.1, hp.1.2, hp.2, hrid⟩
  · intro sp hsp
    obtain ⟨r, hr, hsp0, _⟩ := h.spots_first sp hsp
    exact ⟨r, hr, hsp0, by rw [hsp0]; rfl⟩
  · intro r hm hr
    obtain ⟨hs, hk, hv, _⟩ := (Row.hasTicketIn_iff r ev.ID).mp hr
    obtain ⟨r0, h0⟩ := firstSpotRow_of_mem hm ((Row.hasSpot_iff r _).mpr ⟨hs, hv, rfl⟩)
    obtain ⟨hm0, hs0, hv0, hid0⟩ := firstSpotRow_some h0
    have hk0 : r0.eventID.String = ev.ID :=
      (hsingle r0 hm0 r hm hs0 hs hv0 hv hid0).trans hk
    refine ⟨r0.spot, h.spots_all _ r0 h0 hk0, hid0, ?_, rfl⟩
    simp only [ticketOf, h0, Option.map_some', Option.getD_some, Row.ticket]
  · intro hjoin
    rw [h.tickets]
    congr 1
    apply List.filter_congr
    intro r hm
    cases ht : r.ticketID.Valid with
    | false => simp [Row.hasTicketIn, ht]
    | true => simp [Row.hasTicketIn, ht, hjoin r hm ht]

/-- C9 (as the code does it): when `ListEvents` returns events, their IDs are distinct
and are exactly the event IDs of the processed rows: one event per distinct ID. Their
order is that of a Go map range, hence a permutation of the keys of the map and not
necessarily the order of first appearance. -/
theorem ListEvents_one_event_per_id (parse : GoString → Except Error Time) (seed : List Nat)
    (scans : List (Except Error Row)) (err : Option Error) (events : List Event)
    (h : ListEvents parse seed (.ok ⟨scans, err⟩) = (some events, none)) :
    (events.map (fun ev => ev.ID)).Nodup ∧
    (∀ k, k ∈ events.map (fun ev => ev.ID) ↔
      ∃ r, .ok r ∈ scans ∧ r.skipped = false ∧ r.eventID.String = k) ∧
    (∀ sc ∈ scans, ∃ r, sc = .ok r) ∧ err = none := by
  have h1 : (ListEvents parse seed (.ok ⟨scans, err⟩)).1 = some events := by rw [h]
  obtain ⟨rows, m, hq, hinv, hev⟩ := ListEvents_of_ok h1
  simp only [Except.ok.injEq, Rows.mk.injEq] at hq
  obtain ⟨hscans, herr⟩ := hq
  have hperm := range_ids_perm hinv seed
  rw [← hev] at hperm
  refine ⟨hperm.nodup_iff.mpr hinv.keys_nodup, ?_, ?_, herr⟩
  · intro k
    rw [hperm.mem_iff, hinv.keys_iff, hscans]
    constructor
    · rintro ⟨r, hm, hr⟩
      exact ⟨r, List.mem_map.mpr ⟨r, hm, rfl⟩, hr⟩
    · rintro ⟨r, hm, hr⟩
      obtain ⟨r0, hm0, h0⟩ := List.mem_map.mp hm
      have h01 : r0 = r := Except.ok.inj h0
      subst h01
      exact ⟨r0, hm0, hr⟩
  · intro sc hsc
    rw [hscans] at hsc
    obtain ⟨r, _, hr⟩ := List.mem_map.mp hsc
    exact ⟨r, hr.symm⟩

/-! ## The scenario, evaluated -/

/-- C3, refuted as stated: the first spot addressed by `(E1, s1)` in `soldHall` has the
status `"sold"`, yet `ReserveSpot` answers with a 200 and the spot, and rewrites its
status to `"reserved"` instead of answering 409 and leaving the spots alone. -/
theorem ReserveSpot_sold_not_conflict :
    soldHall.Spots.find? (·.addressedBy (ascii "E1") (ascii "s1")) = some soldA1 ∧
    soldA1.Status = SpotStatusSold ∧
    ReserveSpot soldHall (ascii "E1") (ascii "s1") =
      (.json { soldA1 with Status := ascii "reserved" },
        { Events := [], Spots := [{ soldA1 with Status := ascii "reserved" }, spotB2] }) ∧
    (ReserveSpot soldHall (ascii "E1") (ascii "s1")).1.status = StatusOK ∧
    (ReserveSpot soldHall (ascii "E1") (ascii "s1")).2 ≠ soldHall := by
  decide

/-- C4, refuted as stated: reserving the available spot `A1` succeeds, and the spot
returned and stored has the status `"reserved"`, which is not `SpotStatusSold`, and an
empty `TicketId`. -/
theorem ReserveSpot_success_not_sold_no_ticket :
    hall.Spots.find? (·.addressedBy (ascii "E1") (ascii "s1")) = some spotA1 ∧
    spotA1.Status = SpotStatusAvailable ∧
    ReserveSpot hall (ascii "E1") (ascii "s1") =
      (.json { spotA1 with Status := ascii "reserved" },
        { Events := [], Spots := [{ spotA1 with Status := ascii "reserved" }, spotB2] }) ∧
    ascii "reserved" ≠ SpotStatusSold ∧
    Spot.TicketId { spotA1 with Status := ascii "reserved" } = [] := by
  decide

/-- C9, refuted as stated: the rows show `E1` first and `E2` second, and a map range may
return `E2` before `E1`. -/
theorem ListEvents_order_not_first_seen :
    [rowA1, rowE2].map (fun r => r.eventID.String) = [ascii "E1", ascii "E2"] ∧
    rowA1.skipped = false ∧ rowE2.skipped = false ∧
    (ListEvents parseDate [1] (.ok ⟨[.ok rowA1, .ok rowE2], none⟩)).2 = none ∧
    (ListEvents parseDate [1] (.ok ⟨[.ok rowA1, .ok rowE2], none⟩)).1.map
      (fun events => events.map (fun ev => ev.ID)) = some [ascii "E2", ascii "E1"] := by
  decide

/-- C7, at two requests for the available `A1`: when both goroutines make the test before
either writes, both are answered with a 200 and the spot, and none with a 409; when they
run one after the other the second gets the 409; and even a single reservation leaves
the events without any ticket. -/
theorem ReserveSpot_concurrent_both_succeed :
    hall.Spots.find? (·.addressedBy (ascii "E1") (ascii "s1")) = some spotA1 ∧
    spotA1.Status = SpotStatusAvailable ∧
    interleave hall [.start (ascii "E1") (ascii "s1"), .start (ascii "E1") (ascii "s1")]
        [0, 1, 0, 1] =
      ([.done (.json { spotA1 with Status := ascii "reserved" }),
        .done (.json { spotA1 with Status := ascii "reserved" })], reservedHall) ∧
    interleave hall [.start (ascii "E1") (ascii "s1"), .start (ascii "E1") (ascii "s1")]
        [0, 0, 1, 1] =
      ([.done (.json { spotA1 with Status := ascii "reserved" }),
        .done (.error (ascii "Spot already reserved") StatusConflict)], reservedHall) ∧
    (ReserveSpot hall (ascii "E1") (ascii "s1")).1.status = StatusOK ∧
    (ReserveSpot hall (ascii "E1") (ascii "s1")).2.Events = [] := by
  decide

/-- C8, at an event with two spots and one ticket on `A1`: the event comes back with the
two spots and the ticket referencing `A1`, but the ticketed spot shows an empty
`TicketId` where its row has the `ticket_id` `T1`, no key of the `Spot` literal being
the declared field. -/
theorem ListEvents_ticket_id_not_carried :
    rowA1.spotTicketID = .value (ascii "T1") ∧ rowA1.ticketID = .value (ascii "T1") ∧
    rowB2.spotTicketID = .null ∧
    ListEvents parseDate [] (.ok ⟨[.ok rowA1, .ok rowB2], none⟩) =
      (some [{ rowA1.event ⟨0⟩ with
        Spots :=
          [{ ID := ascii "s1", EventID := ascii "E1", Name := ascii "A1",
             Status := ascii "sold", TicketId := [] },
           { ID := ascii "s2", EventID := ascii "E1", Name := ascii "B2",
             Status := ascii "available", TicketId := [] }]
        Tickets :=
          [{ ID := ascii "T1", EventID := ascii "E1",
             Spot := some { ID := ascii "s1", EventID := ascii "E1", Name := ascii "A1",
                            Status := ascii "sold", TicketId := [] },
             TicketType := ascii "full", Price := ⟨0⟩ }] }], none) ∧
    rowA1.spot.TicketId ≠ ascii "T1" := by
  decide

/-! ## The theorems at the scenario -/

/-- C1 at the name `A1`: `NewSpot` succeeds and returns the available spot of `E1`. -/
theorem NewSpot_succeeds_iff_witness :
    (NewSpot (ascii "u1") (rowE1.event ⟨0⟩) (ascii "A1")).2 = none ∧
    (NewSpot (ascii "u1") (rowE1.event ⟨0⟩) (ascii "A1")).1 =
      some { ID := ascii "u1", EventID := ascii "E1", Name := ascii "A1",
             Status := SpotStatusAvailable, TicketId := [] } :=
  ⟨by decide, (NewSpot_succeeds_iff (ascii "u1") (rowE1.event ⟨0⟩) (ascii "A1")).2 (by decide)⟩

/-- C2 at the one-byte name `a`: the length rule comes before the letter rule. -/
theorem Validate_error_priority_witness :
    (Spot.Name { spotA1 with Name := ascii "a" }).length = 1 ∧
    Spot.Validate { spotA1 with Name := ascii "a" } = some ErrSpotNameTwoCharacters ∧
    NewSpot (ascii "u1") (rowE1.event ⟨0⟩) (ascii "a") = (none, some ErrSpotNameTwoCharacters) :=
  ⟨by decide,
    (Validate_error_priority (ascii "u1") (rowE1.event ⟨0⟩)
      { spotA1 with Name := ascii "a" }).2.1 (by decide)⟩

/-- C3 at `reservedHall`: reserving `A1` again is a 409 and changes nothing. -/
theorem ReserveSpot_conflict_when_reserved_witness :
    reservedHall.Spots.find? (·.addressedBy (ascii "E1") (ascii "s1")) =
      some { spotA1 with Status := ascii "reserved" } ∧
    ReserveSpot reservedHall (ascii "E1") (ascii "s1") =
      (.error (ascii "Spot already reserved") StatusConflict, reservedHall) :=
  ⟨by decide,
    ReserveSpot_conflict_when_reserved reservedHall (ascii "E1") (ascii "s1")
      { spotA1 with Status := ascii "reserved" } (by decide) (by decide)⟩

/-- C4 at `hall`: reserving the available `A1` returns and stores it as `"reserved"`. -/
theorem ReserveSpot_success_sets_reserved_witness :
    hall.Spots.find? (·.addressedBy (ascii "E1") (ascii "s1")) = some spotA1 ∧
    spotA1.Status ≠ ascii "reserved" ∧
    (ReserveSpot hall (ascii "E1") (ascii "s1")).1 =
      .json { spotA1 with Status := ascii "reserved" } ∧
    (ReserveSpot hall (ascii "E1") (ascii "s1")).2.Spots.find?
        (·.addressedBy (ascii "E1") (ascii "s1")) =
      some { spotA1 with Status := ascii "reserved" } ∧
    (ReserveSpot hall (ascii "E1") (ascii "s1")).2.Events = hall.Events :=
  ⟨by decide, by decide,
    ReserveSpot_success_sets_reserved hall (ascii "E1") (ascii "s1") spotA1
      (by decide) (by decide)⟩

/-- C5 at `hall`: the spot `s1` exists under `E1` only, so `(E2, s1)` is a 404. -/
theorem ReserveSpot_not_found_unchanged_witness :
    (∀ s ∈ hall.Spots, ¬ (s.EventID = ascii "E2" ∧ s.ID = ascii "s1")) ∧
    ReserveSpot hall (ascii "E2") (ascii "s1") =
      (.error (ascii "Spot not found for this event") StatusNotFound, hall) :=
  ⟨by decide, ReserveSpot_not_found_unchanged hall (ascii "E2") (ascii "s1") (by decide)⟩

/-- C6 at `hall`: after `A1` is reserved and two other requests are served, `A1` is a 409. -/
theorem ReserveSpot_at_most_once_witness :
    (ReserveSpot hall (ascii "E1") (ascii "s1")).1 =
      .json { spotA1 with Status := ascii "reserved" } ∧
    ReserveSpot
        (serve (ReserveSpot hall (ascii "E1") (ascii "s1")).2
          [(ascii "E1", ascii "s2"), (ascii "E2", ascii "s1")]).2 (ascii "E1") (ascii "s1") =
      (.error (ascii "Spot already reserved") StatusConflict,
        (serve (ReserveSpot hall (ascii "E1") (ascii "s1")).2
          [(ascii "E1", ascii "s2"), (ascii "E2", ascii "s1")]).2) :=
  ⟨by decide,
    (ReserveSpot_at_most_once hall (ascii "E1") (ascii "s1")
      [(ascii "E1", ascii "s2"), (ascii "E2", ascii "s1")]).1
      { spotA1 with Status := ascii "reserved" } (by decide)⟩

/-- C10 at `hall`: after `Reserve(E1, A1)`, `Reserve(E1, B2)` succeeds as it would have before. -/
theorem ReserveSpot_frame_witness :
    (ascii "E1", ascii "s2") ≠ (ascii "E1", ascii "s1") ∧
    (ReserveSpot hall (ascii "E1") (ascii "s2")).1 =
      .json { spotB2 with Status := ascii "reserved" } ∧
    (ReserveSpot (ReserveSpot hall (ascii "E1") (ascii "s1")).2 (ascii "E1") (ascii "s2")).1 =
      (ReserveSpot hall (ascii "E1") (ascii "s2")).1 :=
  ⟨by decide, by decide,
    (ReserveSpot_frame hall (ascii "E1") (ascii "s1")).2.2.2 (ascii "E1") (ascii "s2")
      (by decide)⟩

/-- C9 at the rows of `E1` and `E2`, ranged in the order `E2`, `E1`. -/
theorem ListEvents_one_event_per_id_witness :
    ListEvents parseDate [1] (.ok ⟨[.ok rowA1, .ok rowE2], none⟩) =
      (some [rowE2.event ⟨0⟩,
        { rowA1.event ⟨0⟩ with
          Spots := [rowA1.spot], Tickets := [rowA1.ticket rowA1.spot] }], none) ∧
    (List.map (fun ev => ev.ID) [rowE2.event ⟨0⟩,
        { rowA1.event ⟨0⟩ with
          Spots := [rowA1.spot], Tickets := [rowA1.ticket rowA1.spot] }]).Nodup :=
  ⟨by decide,
    (ListEvents_one_event_per_id parseDate [1] [.ok rowA1, .ok rowE2] none _ (by decide)).1⟩

end TicketSales
